import Mathlib

/-!
# Verification of the insurance back-office document/category core

A shallow embedding, in Lean 4, of the decision logic of the repository:

* `category_mapping.py` — the category registry (display-name to category-id
  mapping, per-claim-type valid category sets, normalization);
* `document_utils.py` / `routers/documents.py` — folder-path derivation,
  URL introspection, the category-structure oracle and the upload
  validation pipeline;
* `routers/agent_integration.py` — the sync reconciler, the MongoDB
  read-repair projection, review, manual step completion and rollback.

Python strings are modelled as `String` (a structure over `List Char` in
this Lean version); the character-level Python operations used by the
sources (`str.lower`, `str.replace`, `re.sub` character filters,
`str.split`, `'sep' in s`, `str.strip`) are given executable models on
`List Char` below, each documented with the Python construct it embeds.
Python `str.lower()` is modelled on the ASCII range, which is the range
the sources rely on (all non-ASCII characters are removed by the
`[^a-z0-9-]` filter immediately after lowering).

The relational layer (`crud.py`, `models.py`) is not part of the provided
sources; where a claim depends on it, its behaviour is modelled from the
spec and marked `Modelled from the spec:` in the doc comment.
-/

/-! ## Python string primitives on `List Char` -/
/-- ASCII model of Python `str.lower()` applied to one character. -/
def lowerChar (c : Char) : Char :=
  if 65 ≤ c.toNat ∧ c.toNat ≤ 90 then Char.ofNat (c.toNat + 32) else c

/-- Model of Python `s.replace(a, b)` for single characters `a`, `b`:
a character-wise map. -/
def replChar (a b : Char) (c : Char) : Char := if c = a then b else c

/-- The character class `[a-z0-9-]` of the `re.sub` filters in
`normalize_category_for_folder` / `normalize_category_id`. -/
def isCatChar (c : Char) : Bool :=
  (97 ≤ c.toNat && c.toNat ≤ 122) || (48 ≤ c.toNat && c.toNat ≤ 57) || (c.toNat == 45)

/-- Model of Python `re.sub(r'-+', '-', s)`: collapse every maximal run of
hyphens to a single hyphen. -/
def collapseHyphens : List Char → List Char
  | [] => []
  | [c] => [c]
  | a :: b :: rest =>
    if a == '-' && b == '-' then collapseHyphens (b :: rest)
    else a :: collapseHyphens (b :: rest)

/-- Model of Python `s.strip('-')`: drop leading and trailing hyphens. -/
def stripHyphens (l : List Char) : List Char :=
  (l.dropWhile (· == '-')).rdropWhile (· == '-')

/-- No two adjacent hyphens occur in the list. -/
def noDoubleHyphen : List Char → Bool
  | [] => true
  | [_] => true
  | a :: b :: rest => !(a == '-' && b == '-') && noDoubleHyphen (b :: rest)

/-! ## Category registry (`category_mapping.py`) -/
/-- The `"life"` entry of `CATEGORY_MAPPING` (`category_mapping.py` lines 12-23). -/
def LIFE_MAPPING : List (String × String) :=
  [("Death Certificate", "death-certificate"),
   ("Death Claim Form", "claim-form"),
   ("Original Policy Document", "policy-document"),
   ("Claimant ID Proof", "claimant-id"),
   ("Address Proof", "claimant-address"),
   ("Medical Records (if illness)", "medical-records"),
   ("FIR Copy (if accidental)", "fir-copy"),
   ("Post Mortem Report (if applicable)", "post-mortem"),
   ("Nominee Relationship Proof", "nominee-proof"),
   ("Cancelled Cheque/Bank Statement", "bank-details")]

/-- The `"health"` entry of `CATEGORY_MAPPING` (`category_mapping.py` lines 24-39). -/
def HEALTH_MAPPING : List (String × String) :=
  [("Pre-Authorization Form", "pre-auth"),
   ("Hospital ID Card", "hospital-id"),
   ("Policy Copy", "policy-copy"),
   ("Photo ID Proof", "id-proof"),
   ("Medical Reports/Prescription", "medical-reports"),
   ("Duly Filled Claim Form", "claim-form"),
   ("Hospital Bills & Receipts", "hospital-bills"),
   ("Discharge Summary", "discharge-summary"),
   ("Investigation Reports", "medical-reports"),
   ("Doctor's Prescription", "prescription"),
   ("Payment Receipts", "payment-receipts"),
   ("Cancelled Cheque", "cancelled-cheque")]

/-- The `"car"` entry of `CATEGORY_MAPPING` (`category_mapping.py` lines 40-50). -/
def CAR_MAPPING : List (String × String) :=
  [("Duly Filled Claim Form", "claim-form"),
   ("Policy Copy", "policy-copy"),
   ("RC Book Copy", "rc-copy"),
   ("Driving License", "driving-license"),
   ("FIR Copy", "fir-copy"),
   ("Vehicle Damage Photos", "damage-photos"),
   ("Repair Estimate/Invoice", "repair-estimate"),
   ("Survey Report", "survey-report"),
   ("Third Party Documents", "third-party-docs")]

/-- `CATEGORY_MAPPING` of `category_mapping.py` lines 11-51: per claim type,
the ordered display-name → category-id dictionary. -/
def CATEGORY_MAPPING : List (String × List (String × String)) :=
  [("life", LIFE_MAPPING), ("health", HEALTH_MAPPING), ("car", CAR_MAPPING)]

/-- `VALID_CATEGORIES` of `category_mapping.py` lines 54-69: the per-type
valid category-id sets (Python sets, modelled as lists with membership). -/
def VALID_CATEGORIES : List (String × List String) :=
  [("life",
    ["death-certificate", "claim-form", "policy-document", "claimant-id",
     "claimant-address", "medical-records", "fir-copy", "post-mortem",
     "nominee-proof", "bank-details"]),
   ("health",
    ["pre-auth", "hospital-id", "policy-copy", "id-proof", "medical-reports",
     "claim-form", "hospital-bills", "discharge-summary", "prescription",
     "payment-receipts", "cancelled-cheque"]),
   ("car",
    ["claim-form", "policy-copy", "rc-copy", "driving-license", "fir-copy",
     "damage-photos", "repair-estimate", "survey-report", "third-party-docs"])]

/-- `get_category_id` of `category_mapping.py` lines 72-94: exact lookup of a
display name in the per-type mapping, `None` when the claim type or the name
is unknown. -/
def get_category_id (claim_type : String) (document_name : String) : Option String :=
  match CATEGORY_MAPPING.lookup claim_type with
  | none => none
  | some m => m.lookup document_name

/-- `is_valid_category` of `category_mapping.py` lines 125-147: membership of
a category id in the claim type's valid set, false for unknown types. -/
def is_valid_category (claim_type : String) (category_id : String) : Bool :=
  match VALID_CATEGORIES.lookup claim_type with
  | none => false
  | some s => s.contains category_id

/-- `normalize_category_for_folder` of `document_utils.py` lines 134-167 (the
identical function also appears in `routers/documents.py` lines 46-80 and as
`normalize_category_id` in `category_mapping.py` lines 170-199): lowercase,
replace space and underscore by hyphen, strip characters outside `[a-z0-9-]`,
collapse repeated hyphens, trim boundary hyphens. -/
def normChars (l : List Char) : List Char :=
  stripHyphens (collapseHyphens
    ((((l.map lowerChar).map (replChar ' ' '-')).map (replChar '_' '-')).filter isCatChar))

/-- String-level wrapper of `normChars`; see the doc comment of `normChars`
for the source locations. -/
def normalize_category_for_folder (category : String) : String :=
  ⟨normChars category.data⟩

/-- `normalize_category_id` of `category_mapping.py` lines 170-199: textually
the same algorithm as `normalize_category_for_folder`. -/
def normalize_category_id (category : String) : String :=
  normalize_category_for_folder category

/-! ## Folder path deriver (`document_utils.py` lines 21-80,
`routers/documents.py` lines 82-123) -/
/-- Python truthiness of an optional integer argument (`if claimId:`):
false for `None` and for `0`. -/
def pyTruthyOptInt : Option Int → Bool
  | none => false
  | some n => n != 0

/-- Python truthiness of an optional string argument (`if category:`):
false for `None` and for the empty string. -/
def pyTruthyOptStr : Option String → Bool
  | none => false
  | some s => s != ""

/-- `FOLDER_MAP` of `document_utils.py` lines 11-18 (duplicated in
`routers/documents.py` lines 37-44). -/
def FOLDER_MAP : List (String × String) :=
  [("kyc_document", "kyc"), ("id_card", "id_cards"), ("pan_card", "pan_cards"),
   ("policy_document", "policies"), ("claim_document", "claims"), ("other", "other")]

/-- `FOLDER_MAP.get(documentType, "other")`. -/
def folderForType (documentType : String) : String :=
  (FOLDER_MAP.lookup documentType).getD "other"

/-- `derive_folder_path` of `document_utils.py` lines 21-80 (identical logic in
`routers/documents.py` lines 82-123).  The two `if claimId:` / `if category:`
tests are Python truthiness tests, modelled by `pyTruthyOptInt` /
`pyTruthyOptStr`. -/
def derive_folder_path (userId : Int) (documentType : String)
    (claimId : Option Int := none) (category : Option String := none) : String :=
  let base_folder := folderForType documentType
  if documentType = "claim_document" then
    if pyTruthyOptInt claimId then
      if pyTruthyOptStr category then
        "claims/" ++ toString (claimId.getD 0) ++ "/" ++
          normalize_category_for_folder (category.getD "")
      else
        "claims/" ++ toString (claimId.getD 0)
    else
      if pyTruthyOptStr category then
        "claims/pending/" ++ toString userId ++ "/" ++
          normalize_category_for_folder (category.getD "")
      else
        "claims/pending/" ++ toString userId
  else
    "users/" ++ toString userId ++ "/" ++ base_folder

/-! ## URL/key introspector (`document_utils.py` lines 83-203) -/
/-- Model of Python `sep in s` (substring containment on strings). -/
def containsSub (sep s : List Char) : Bool :=
  s.tails.any fun t => sep.isPrefixOf t

/-- Fuel-indexed worker for `pySplit`; the fuel is always instantiated with
the length of the list, so the `0, s` fallback is never hit. -/
def pySplitAux (sep : List Char) : Nat → List Char → List (List Char)
  | _, [] => [[]]
  | 0, s => [s]
  | fuel+1, c :: rest =>
    if sep.isPrefixOf (c :: rest) then
      [] :: pySplitAux sep fuel ((c :: rest).drop sep.length)
    else
      match pySplitAux sep fuel rest with
      | [] => [[c]]
      | x :: xs => (c :: x) :: xs

/-- Model of Python `s.split(sep)` for a non-empty separator: split at each
leftmost non-overlapping occurrence of `sep`. -/
def pySplit (sep s : List Char) : List (List Char) :=
  pySplitAux sep s.length s

/-- Model of Python `'/'.join(parts)`. -/
def joinSlash (parts : List (List Char)) : List Char :=
  List.intercalate ['/'] parts

/-- The `'/uploads/'` marker of the local-storage URL shape. -/
def sepUploads : List Char := "/uploads/".data

/-- The `'blob.core.windows.net'` marker used by the containment test. -/
def sepBlobHost : List Char := "blob.core.windows.net".data

/-- The `'blob.core.windows.net/'` separator used by the split. -/
def sepBlobHostSlash : List Char := "blob.core.windows.net/".data

/-- `extract_folder_from_url` of `document_utils.py` lines 83-131.  The
`container_name` parameter of the source is accepted and ignored by its
logic, so it is omitted here.  The `try/except` of the source can only catch
exceptions string operations never raise, so it has no behaviour to model. -/
def extract_folder_from_url (url : String) : Option String :=
  if containsSub sepUploads url.data then
    let parts := pySplit sepUploads url.data
    if parts.length > 1 then
      let path := (parts.get? 1).getD []
      let folder_path := joinSlash ((path.splitOn '/').dropLast)
      if folder_path ≠ [] then some ⟨folder_path⟩ else none
    else none
  else if containsSub sepBlobHost url.data then
    let parts := pySplit sepBlobHostSlash url.data
    if parts.length > 1 then
      let path := (parts.get? 1).getD []
      let path_parts := path.splitOn '/'
      if path_parts.length > 2 then
        let folder_path := joinSlash ((path_parts.drop 1).dropLast)
        if folder_path ≠ [] then some ⟨folder_path⟩ else none
      else none
    else none
  else none

/-- `has_category_folder` of `document_utils.py` lines 170-203. -/
def has_category_folder (url : String) : Bool :=
  match extract_folder_from_url url with
  | none => false
  | some folder_path =>
    if folder_path = "" then false
    else
      let parts := folder_path.data.splitOn '/'
      if 3 ≤ parts.length ∧ (parts.get? 0).getD [] = "claims".data then
        if (parts.get? 1).getD [] = "pending".data then decide (4 ≤ parts.length)
        else decide (3 ≤ parts.length)
      else false

/-- The structural invariant of spec §3/§4.3, stated the way the spec words
it: the extracted folder lies under the `claims/` prefix and has at least 3
segments in the claim-bound shape or at least 4 segments in the pending
shape. -/
def hasCategoryShapeSpec (url : String) : Prop :=
  ∃ f : String, extract_folder_from_url url = some f ∧
    (f.data.splitOn '/').head? = some "claims".data ∧
    (((f.data.splitOn '/').get? 1 = some "pending".data ∧ 4 ≤ (f.data.splitOn '/').length) ∨
     ((f.data.splitOn '/').get? 1 ≠ some "pending".data ∧ 3 ≤ (f.data.splitOn '/').length))

/-- The local-serving URL shape of the spec's round-trip property: the base
URL the upload handler produces for local storage
(`routers/documents.py` line 308), with a concrete host. -/
def localUploadUrl (key fileName : String) : String :=
  "http://localhost:8000/uploads/" ++ key ++ "/" ++ fileName

/-- The Azure blob URL shape (`host/container/key/file`) with the default
container `insurance-documents` and a concrete account host. -/
def azureBlobUrl (key fileName : String) : String :=
  "https://account.blob.core.windows.net/insurance-documents/" ++ key ++ "/" ++ fileName

/-! ## Document upload orchestrator (`routers/documents.py` lines 125-349) -/
/-- `ALLOWED_DOCUMENT_TYPES` of `routers/documents.py` lines 18-25. -/
def ALLOWED_DOCUMENT_TYPES : List String :=
  ["kyc_document", "id_card", "pan_card", "policy_document", "claim_document", "other"]

/-- `ALLOWED_FILE_EXTENSIONS` of `routers/documents.py` lines 28-31. -/
def ALLOWED_FILE_EXTENSIONS : List String :=
  [".pdf", ".jpg", ".jpeg", ".png", ".gif", ".bmp",
   ".doc", ".docx", ".xls", ".xlsx", ".txt"]

/-- `MAX_FILE_SIZE` of `routers/documents.py` line 34: 10 MiB. -/
def MAX_FILE_SIZE : Nat := 10 * 1024 * 1024

/-- Model of Python `str.strip()` (whitespace trim). -/
def pyStrip (s : String) : String :=
  ⟨(s.data.dropWhile Char.isWhitespace).rdropWhile Char.isWhitespace⟩

/-- Model of Python `str.strip('/')`. -/
def stripSlashes (s : String) : String :=
  ⟨(s.data.dropWhile (· == '/')).rdropWhile (· == '/')⟩

/-- Model of CPython `os.path.splitext(p)[1]`: the extension starts at the
last dot of the final path component, provided a non-dot character stands
before it in that component (so `.bashrc` has no extension). -/
def splitextExt (l : List Char) : List Char :=
  let base := (l.reverse.takeWhile (fun c => c ≠ '/')).reverse
  let revBase := base.reverse
  let extRev := revBase.takeWhile (fun c => c ≠ '.')
  if extRev.length = revBase.length then []
  else
    let pre := revBase.drop (extRev.length + 1)
    if pre.any (fun c => c ≠ '.') then '.' :: extRev.reverse else []

/-- `os.path.splitext(file.filename)[1].lower()` of
`routers/documents.py` line 188. -/
def pyExt (fileName : String) : String :=
  ⟨(splitextExt fileName.data).map lowerChar⟩

/-- The error taxonomy of spec §4.5/§7 for the upload pipeline.  Each
constructor stands for one distinct rejection site of `upload_document`
(all of which the code surfaces as HTTP 400 with a site-specific message):
`invalidInput` for missing/empty/unparseable fields and the empty file,
`unsupportedMediaType` for the extension check at line 189, and
`payloadTooLarge` for the oversize check at line 206. -/
inductive UploadError where
  | invalidInput (msg : String)
  | unsupportedMediaType
  | payloadTooLarge
deriving DecidableEq

/-- Inbound multipart form of the upload endpoint.  `userId`, `policyId` and
`claimId` arrive as strings and are parsed with `int(...)`; the parse results
are modelled directly (`none` covers both the absent and the unparseable
case, which the code treats alike for `policyId`/`claimId` and rejects for
`userId`). -/
structure UploadRequest where
  userId : Option Int
  documentType : String
  policyId : Option Int
  claimId : Option Int
  category : Option String
  fileName : String
  content : List UInt8

/-- The persisted document row (`schemas.DocumentCreate` fields of
`routers/documents.py` lines 312-319). -/
structure DocumentRecord where
  docId : Int
  userId : Int
  policyId : Option Int
  documentType : String
  documentUrl : String
  uploadDate : String
  fileSize : Nat

/-- Object-store plus relational side effects of one request: every put
(cloud or local) is recorded in `puts`, every created row in `documents`. -/
structure DocStoreState where
  puts : List (String × Nat)
  documents : List DocumentRecord
  nextDocId : Int

/-- Per-request ambient values: whether Azure is configured
(`azure_storage.blob_service_client`), the generated `uuid.uuid4()` token,
the request base URL, today's date, and the blob-URL resolver of the
storage SDK. -/
structure UploadParams where
  azureConfigured : Bool
  uniqueToken : String
  baseUrl : String
  today : String
  blobUrlOf : String → String

/-- Success payload of the upload endpoint (lines 331-339). -/
structure UploadResponse where
  documentId : Int
  fileName : String
  fileUrl : String
  fileSize : Nat
  documentType : String

/-- The side-effecting tail of `upload_document` (executed only after every
validation passed): category normalization (lines 219-231), folder
derivation (line 232), the object-store put — Azure path lines 252-288 with
`folder.strip('/')` and a fresh `uuid + extension` blob name, local path
lines 289-308 — and the DocumentRecord insert of line 321. -/
def uploadEffects (P : UploadParams) (req : UploadRequest) (st : DocStoreState)
    (user_id : Int) (documentType : String) : UploadResponse × DocStoreState :=
  let file_size := req.content.length
  let normalized_category : Option String :=
    match req.category with
    | none => none
    | some cat =>
      if pyStrip cat ≠ "" then some (normalize_category_for_folder (pyStrip cat))
      else none
  let folder := derive_folder_path user_id documentType req.claimId normalized_category
  let file_extension : String := ⟨splitextExt req.fileName.data⟩
  let unique_file_name := P.uniqueToken ++ file_extension
  let put :=
    if P.azureConfigured then
      let folder2 := stripSlashes folder
      let blob_name :=
        if folder2 ≠ "" then folder2 ++ "/" ++ unique_file_name
        else unique_file_name
      (blob_name, P.blobUrlOf blob_name)
    else
      (folder ++ "/" ++ unique_file_name,
       P.baseUrl ++ "/uploads/" ++ folder ++ "/" ++ unique_file_name)
  let record : DocumentRecord :=
    { docId := st.nextDocId, userId := user_id, policyId := req.policyId,
      documentType := documentType, documentUrl := put.2,
      uploadDate := P.today, fileSize := file_size }
  ({ documentId := st.nextDocId, fileName := req.fileName,
     fileUrl := put.2, fileSize := file_size, documentType := documentType },
   { st with puts := st.puts ++ [(put.1, file_size)],
             documents := st.documents ++ [record],
             nextDocId := st.nextDocId + 1 })

/-- `upload_document` of `routers/documents.py` lines 125-349: the
validation chain in source order (userId, documentType presence and
membership, filename presence, extension, emptiness, size bound), then the
side effects of `uploadEffects`. -/
def upload_document (P : UploadParams) (req : UploadRequest) (st : DocStoreState) :
    Except UploadError UploadResponse × DocStoreState :=
  match req.userId with
  | none => (.error (.invalidInput "userId must be a valid integer"), st)
  | some user_id =>
    if pyStrip req.documentType = "" then
      (.error (.invalidInput "documentType is required"), st)
    else if !(ALLOWED_DOCUMENT_TYPES.contains (pyStrip req.documentType)) then
      (.error (.invalidInput "invalid documentType"), st)
    else if pyStrip req.fileName = "" then
      (.error (.invalidInput "file name is required"), st)
    else if !(ALLOWED_FILE_EXTENSIONS.contains (pyExt req.fileName)) then
      (.error .unsupportedMediaType, st)
    else if req.content.length = 0 then
      (.error (.invalidInput "file is empty"), st)
    else if MAX_FILE_SIZE < req.content.length then
      (.error .payloadTooLarge, st)
    else
      (.ok (uploadEffects P req st user_id (pyStrip req.documentType)).1,
       (uploadEffects P req st user_id (pyStrip req.documentType)).2)

/-! ## Agent-integration layer (`routers/agent_integration.py`)

The relational layer (`crud.py`, `models.py`) is not in the provided
sources.  Rows are therefore modelled as Python-style dictionaries (ordered
association lists from column name to value) and the crud helpers are
modelled from the spec, as their doc comments state. -/
/-- A JSON-ish value, covering the payloads the agent-integration code
inspects. -/
inductive Val where
  | null
  | vstr (s : String)
  | vint (n : Int)
  | vbool (b : Bool)
  | varr (elems : List Val)
  | vobj (fields : List (String × Val))

/-- Python truthiness of a value (`if x:`). -/
def pyTruthy : Val → Bool
  | .null => false
  | .vstr s => s != ""
  | .vint n => n != 0
  | .vbool b => b
  | .varr l => !l.isEmpty
  | .vobj l => !l.isEmpty

/-- Python `==` on the scalar values the sources compare (ids, statuses,
step names).  Container comparison is not exercised by the modelled code
paths and is modelled as false. -/
def valEq : Val → Val → Bool
  | .null, .null => true
  | .vstr a, .vstr b => a == b
  | .vint a, .vint b => a == b
  | .vbool a, .vbool b => a == b
  | _, _ => false

/-- A row / Python dict: an ordered association list of columns. -/
abbrev Dict := List (String × Val)

/-- Python `d.get(k)` (default `None`). -/
def dget (d : Dict) (k : String) : Val := (d.lookup k).getD .null

/-- Python `d.get(k, v)`. -/
def dgetD (d : Dict) (k : String) (v : Val) : Val := (d.lookup k).getD v

/-- Python `k in d`. -/
def dhas (d : Dict) (k : String) : Bool := (d.lookup k).isSome

/-- Python `d[k] = v`: update in place when the key exists (keeping its
position), else append. -/
def dset (d : Dict) (k : String) (v : Val) : Dict :=
  if (d.lookup k).isSome then d.map (fun p => if p.1 = k then (k, v) else p)
  else d ++ [(k, v)]

/-- Apply every key of `upd` onto `d` with `dset` — the column-by-column
update of `crud.update_by_id`. -/
def dmerge (d : Dict) (upd : Dict) : Dict :=
  upd.foldl (fun acc p => dset acc p.1 p.2) d

/-- `v` if it is an object, `{}` otherwise — `process.agentData or {}`
(non-dict truthy values would crash the source; they are modelled as `{}`). -/
def asObj (v : Val) : Dict :=
  match v with
  | .vobj d => d
  | _ => []

/-- Modelled from the spec (§4.6, crud.py is not in src/): find the first
row whose column `col` equals `v`. -/
def crudFindBy (rows : List Dict) (col : String) (v : Val) : Option Dict :=
  rows.find? (fun r => valEq (dget r col) v)

/-- Modelled from the spec (§4.6, crud.py is not in src/):
`crud.update_by_id(db, Model, "id", idVal, upd)` — merge `upd` into every
row whose `id` column equals `idVal`, returning the updated row and the new
table, or `none` when no row matches (the source would raise). -/
def crudUpdateById (rows : List Dict) (idVal : Val) (upd : Dict) :
    Option (Dict × List Dict) :=
  match rows.find? (fun r => valEq (dget r "id") idVal) with
  | none => none
  | some r =>
    some (dmerge r upd,
      rows.map (fun row => if valEq (dget row "id") idVal then dmerge row upd else row))

/-- The relational state shared by the agent-integration endpoints:
the two application tables, the master `Claim` table, and the `User` table
(modelled as id → display name, used only for audit-entry names). -/
structure DBState where
  appProcesses : List Dict
  claimApps : List Dict
  masterClaims : List Dict
  users : List (String × String)
  nextAppProcessId : Int
  nextClaimAppId : Int

/-- Modelled from the spec (§3, models.py is not in src/): the column set of
`ClaimApplication` — the ApplicationProcess schema fields surfaced by the
read-repair projection plus the nullable master-Claim reference. -/
def CLAIM_APP_COLUMNS : List String :=
  ["id", "applicationId", "applicationtype", "status", "currentStep", "startTime",
   "lastUpdated", "agentData", "stepHistory", "auditTrail", "customerId",
   "reviewReason", "claim_record_id"]

/-- Modelled from the spec (§3): the column set of `ApplicationProcess`
(no master-Claim reference). -/
def APP_PROCESS_COLUMNS : List String :=
  ["id", "applicationId", "applicationtype", "status", "currentStep", "startTime",
   "lastUpdated", "agentData", "stepHistory", "auditTrail", "customerId",
   "reviewReason"]

/-- The error taxonomy of spec §7 for the agent-integration endpoints. -/
inductive ApiErr where
  | invalidInput (msg : String)
  | notFound (msg : String)
  | conflict (msg : String)
  | internal (msg : String)
deriving DecidableEq

/-- Success payload of the sync endpoint:
`{"status": "success", "action": ..., "id": app_id}`. -/
structure SyncResp where
  status : String
  action : String
  id : Val

/-- Modelled from the spec: `crud.get_claim_application` — lookup of a
ClaimApplication by its external applicationId. -/
def get_claim_application (st : DBState) (appId : Val) : Option Dict :=
  crudFindBy st.claimApps "applicationId" appId

/-- Modelled from the spec: `crud.get_application_process` — lookup of an
ApplicationProcess by its external applicationId. -/
def get_application_process (st : DBState) (appId : Val) : Option Dict :=
  crudFindBy st.appProcesses "applicationId" appId

/-- `crud.update_by_id(db, models.Claim, "id", ref, {"status": s})`,
returning the new master table, `none` on failure. -/
def updateMasterClaimStatus (claims : List Dict) (ref sVal : Val) :
    Option (List Dict) :=
  match crudUpdateById claims ref [("status", sVal)] with
  | none => none
  | some (_, rows) => some rows

/-- The `try: ... except: pass` master-claim propagation of
`agent_integration.py` lines 68-73 and 81-86: a failed propagation leaves
the master table untouched and is never surfaced. -/
def propagateMaster (st : DBState) (ref sVal : Val) : DBState :=
  { st with masterClaims := (updateMasterClaimStatus st.masterClaims ref sVal).getD st.masterClaims }

/-- The inbound field set of a claim sync after `process_data["lastUpdated"]
= now` and the filter to the ClaimApplication columns
(`agent_integration.py` lines 58-62). -/
def claimSyncFiltered (now : Val) (payload : Dict) : Dict :=
  (dset payload "lastUpdated" now).filter (fun p => CLAIM_APP_COLUMNS.contains p.1)

/-- The row `crud.create_entry` persists for a fresh claim sync: the
filtered fields plus the autoincremented id (modelled from the spec,
crud.py is not in src/). -/
def newClaimRow (now : Val) (payload : Dict) (st : DBState) : Dict :=
  dset (claimSyncFiltered now payload) "id" (.vint st.nextClaimAppId)

/-- The policy-branch analogue of `claimSyncFiltered`
(`agent_integration.py` lines 96-101). -/
def policySyncFiltered (now : Val) (payload : Dict) : Dict :=
  (dset payload "lastUpdated" now).filter (fun p => APP_PROCESS_COLUMNS.contains p.1)

/-- `sync_agent_state` of `agent_integration.py` lines 21-127 (the claim
and the policy/legacy branch; JSON body parsing is upstream).  `now` is
`datetime.now().date()`. -/
def sync_agent_state (now : Val) (payload : Dict) (st : DBState) :
    Except ApiErr SyncResp × DBState :=
  if !(pyTruthy (dget payload "applicationId")) then
    (.error (.invalidInput "Missing applicationId"), st)
  else if valEq (dgetD payload "applicationtype" (.vstr "policy")) (.vstr "claim") then
    match get_claim_application st (dget payload "applicationId") with
    | some db_claim =>
      match crudUpdateById st.claimApps (dget db_claim "id")
          (claimSyncFiltered now payload) with
      | none => (.error (.internal "Backend Sync Error"), st)
      | some (updated, rows) =>
        (.ok ⟨"success", "updated", dget payload "applicationId"⟩,
         if pyTruthy (dget updated "claim_record_id") &&
            dhas (claimSyncFiltered now payload) "status" then
           propagateMaster { st with claimApps := rows }
             (dget updated "claim_record_id")
             (dget (claimSyncFiltered now payload) "status")
         else { st with claimApps := rows })
    | none =>
      (.ok ⟨"success", "created", dget payload "applicationId"⟩,
       if pyTruthy (dget (newClaimRow now payload st) "claim_record_id") then
         propagateMaster
           { st with claimApps := st.claimApps ++ [newClaimRow now payload st],
                     nextClaimAppId := st.nextClaimAppId + 1 }
           (dget (newClaimRow now payload st) "claim_record_id")
           (dget (newClaimRow now payload st) "status")
       else
         { st with claimApps := st.claimApps ++ [newClaimRow now payload st],
                   nextClaimAppId := st.nextClaimAppId + 1 })
  else
    match get_application_process st (dget payload "applicationId") with
    | some db_process =>
      match crudUpdateById st.appProcesses (dget db_process "id")
          (policySyncFiltered now payload) with
      | none => (.error (.internal "Backend Sync Error"), st)
      | some (_, rows) =>
        (.ok ⟨"success", "updated", dget payload "applicationId"⟩,
         { st with appProcesses := rows })
    | none =>
      (.ok ⟨"success", "created", dget payload "applicationId"⟩,
       { st with
         appProcesses := st.appProcesses ++
           [dset (policySyncFiltered now payload) "id" (.vint st.nextAppProcessId)],
         nextAppProcessId := st.nextAppProcessId + 1 })

/-- The pseudo-id of the read-repair projection (lines 169-170):
`int(hash(application_id) % 1000000)` made non-negative. -/
def readRepairId (hashFn : String → Int) (application_id : String) : Int :=
  if hashFn application_id % 1000000 < 0 then -(hashFn application_id % 1000000)
  else hashFn application_id % 1000000

/-- The status-to-step inference of lines 173-176. -/
def readRepairStep (statusVal : Val) : String :=
  if valEq statusVal (.vstr "approved") then "final_decision"
  else if valEq statusVal (.vstr "rejected") then "final_decision"
  else "ingest"

/-- `get_application` of `agent_integration.py` lines 146-213: relational
lookup (ApplicationProcess, then ClaimApplication), then the MongoDB
read-repair projection.  `hashFn` models Python's per-process `hash` on
strings, `parseDate` models the `datetime.fromisoformat` parsing of
`created_at` (`none` for a parse failure), `mongoDoc` the result of the
`claims` collection lookup, `now` is `datetime.now().date()`. -/
def get_application (hashFn : String → Int) (parseDate : Val → Option Val) (now : Val)
    (application_id : String) (mongoDoc : Option Dict) (st : DBState) :
    Except ApiErr Dict :=
  match get_application_process st (.vstr application_id) with
  | some p => .ok p
  | none =>
    match get_claim_application st (.vstr application_id) with
    | some p => .ok p
    | none =>
      match mongoDoc with
      | none => .error (.notFound "Application process not found")
      | some doc =>
        .ok [("id", .vint (readRepairId hashFn application_id)),
             ("applicationId", .vstr application_id),
             ("status", dgetD doc "status" (.vstr "new_claim")),
             ("currentStep", .vstr (readRepairStep (dgetD doc "status" (.vstr "new_claim")))),
             ("applicationtype", .vstr "claim"),
             ("startTime",
               if pyTruthy (dget doc "created_at") then
                 (parseDate (dget doc "created_at")).getD now
               else now),
             ("lastUpdated", now),
             ("agentData", .vobj doc),
             ("stepHistory", dgetD doc "step_history" (.varr [])),
             ("auditTrail", .varr []),
             ("customerId",
               if pyTruthy (dget doc "user_id") then dget doc "user_id"
               else dget doc "userId"),
             ("reviewReason", .null)]

/-- `json.loads` plus `list(...)` coercion of a step-history or audit-trail
column: a stored string goes through the abstract `jsonParse`, a stored
array is used directly; elements that are not objects would crash the
source's `step.get` and are modelled as empty dicts. -/
def toDictList (jsonParse : String → Val) (v : Val) : List Dict :=
  match v with
  | .vstr s =>
    match jsonParse s with
    | .varr l => l.map asObj
    | _ => []
  | .varr l => l.map asObj
  | _ => []

/-- Step-history extraction of `agent_integration.py` lines 296-307 and
439-450: the dedicated `stepHistory` column first, the copy nested in
`agentData` as fallback. -/
def getStepHistory (jsonParse : String → Val) (process : Dict) : List Dict :=
  if pyTruthy (dget process "stepHistory") then
    toDictList jsonParse (dget process "stepHistory")
  else if pyTruthy (dget process "agentData") &&
      pyTruthy (dget (asObj (dget process "agentData")) "stepHistory") then
    toDictList jsonParse (dget (asObj (dget process "agentData")) "stepHistory")
  else []

/-- Audit-trail extraction of lines 348-353 and 486-491. -/
def getAuditTrail (jsonParse : String → Val) (process : Dict) : List Dict :=
  if pyTruthy (dget process "auditTrail") then
    toDictList jsonParse (dget process "auditTrail")
  else []

/-- Modelled from the spec (the `User` model is not in src/): the
admin-name resolution of lines 356-364 — display name from the user table
when the admin id resolves, the given id otherwise, `"Admin"` when absent. -/
def resolveAdminName (users : List (String × String)) (admin_id : Option String) : String :=
  match admin_id with
  | none => "Admin"
  | some a =>
    match users.lookup a with
    | some nm => nm
    | none => a

/-- The step-matching test `step.get("id") == step_id or
step.get("name") == step_name` of lines 313 and 455. -/
def stepMatches (step_id : Int) (step_name : String) (step : Dict) : Bool :=
  valEq (dget step "id") (.vint step_id) || valEq (dget step "name") (.vstr step_name)

/-- The in-place completion mutation of lines 314-321. -/
def markStepComplete (nowIso : String) (admin_notes : String) (admin_id : Option String)
    (step : Dict) : Dict :=
  let s := dset (dset (dset (dset (dset step
    "status" (.vstr "completed"))
    "completed_by" (.vstr "human"))
    "admin_notes" (.vstr admin_notes))
    "completed_at" (.vstr nowIso))
    "completion_method" (.vstr "manual")
  match admin_id with
  | some a => dset s "admin_id" (.vstr a)
  | none => s

/-- The find-and-mutate loop of lines 310-323: transform the first matching
step, report whether one was found and its previous status. -/
def findAndComplete (pred : Dict → Bool) (f : Dict → Dict) :
    List Dict → List Dict × Bool × Option Val
  | [] => ([], false, none)
  | s :: rest =>
    if pred s then (f s :: rest, true, some (dgetD s "status" (.vstr "pending")))
    else
      ((s :: (findAndComplete pred f rest).1),
       (findAndComplete pred f rest).2.1, (findAndComplete pred f rest).2.2)

/-- The synthesized step appended when no step matched (lines 325-340). -/
def newCompletedStep (nowIso : String) (req_step_id : Int) (req_step_name : String)
    (admin_notes : String) (admin_id : Option String) : Dict :=
  let s : Dict :=
    [("id", .vint req_step_id), ("name", .vstr req_step_name),
     ("status", .vstr "completed"), ("completed_by", .vstr "human"),
     ("admin_notes", .vstr admin_notes), ("completed_at", .vstr nowIso),
     ("completion_method", .vstr "manual"), ("timestamp", .vstr nowIso),
     ("summary", .vstr ("Manually completed by admin: " ++ admin_notes))]
  match admin_id with
  | some a => dset s "admin_id" (.vstr a)
  | none => s

/-- Request body of the manual step-completion endpoint. -/
structure StepCompleteReq where
  application_id : String
  step_id : Int
  step_name : String
  admin_notes : String
  admin_id : Option String

/-- Request body of the step-rollback endpoint. -/
structure StepRollbackReq where
  application_id : String
  step_id : Int
  step_name : String
  admin_id : Option String
  rollback_reason : Option String

/-- Request body of the review endpoint (the action regex is enforced by
the framework upstream). -/
structure ReviewReq where
  application_id : String
  action : String
  reason : Option String

/-- The persisted-update step shared by completion and rollback
(`crud.update_by_id(db, models.ApplicationProcess, "id", process.id, ...)`
of lines 400 and 527): only the ApplicationProcess table is written. -/
def applyProcessUpdate (st : DBState) (idVal : Val) (update_data : Dict) :
    Except ApiErr Dict × DBState :=
  match crudUpdateById st.appProcesses idVal update_data with
  | none => (.error (.internal "Backend update error"), st)
  | some (updated, rows) => (.ok updated, { st with appProcesses := rows })

/-- The update payload built by manual completion (lines 342-397):
step history, agent data (with the nested copy added only when absent),
audit trail with the new entry, lastUpdated, and the recomputed
`currentStep` when the completed step was the current one. -/
def completeUpdateData (nowIso : String) (nowDate : Val) (users : List (String × String))
    (req : StepCompleteReq) (process : Dict) (step_history2 : List Dict)
    (previous_status : Option Val) (auditOld : List Dict) : Dict :=
  let ad0 := asObj (dget process "agentData")
  let agent_data :=
    if dhas ad0 "stepHistory" then ad0
    else dset ad0 "stepHistory" (.varr (step_history2.map Val.vobj))
  let admin_name := resolveAdminName users req.admin_id
  let audit_entry : Dict :=
    [("timestamp", .vstr nowIso), ("action", .vstr "manual_step_completion"),
     ("step_name", .vstr req.step_name), ("step_id", .vint req.step_id),
     ("admin_name", .vstr admin_name),
     ("admin_id", match req.admin_id with | some a => .vstr a | none => .null),
     ("admin_notes", .vstr req.admin_notes),
     ("previous_status",
       match previous_status with
       | some v => if pyTruthy v then v else .vstr "pending"
       | none => .vstr "pending"),
     ("new_status", .vstr "completed"),
     ("message", .vstr ("Admin " ++ admin_name ++ " manually completed step " ++ req.step_name))]
  let update_data : Dict :=
    [("stepHistory", .varr (step_history2.map Val.vobj)),
     ("agentData", .vobj agent_data),
     ("auditTrail", .varr ((auditOld ++ [audit_entry]).map Val.vobj)),
     ("lastUpdated", nowDate)]
  if valEq (dget process "currentStep") (.vstr req.step_name) ||
      valEq (dget process "currentStep") (.vstr (toString req.step_id)) then
    match step_history2.find? (fun step =>
        valEq (dget step "status") (.vstr "pending") ||
        valEq (dget step "status") (.vstr "in_progress") ||
        valEq (dget step "status") (.vstr "in-progress")) with
    | some stp => dset update_data "currentStep" (dgetD stp "name" (.vstr "unknown"))
    | none => update_data
  else update_data

/-- `complete_step_manually` of `agent_integration.py` lines 277-418 (the
agent-resume notification of lines 402-416 is fire-and-forget and has no
state effect to model). -/
def complete_step_manually (jsonParse : String → Val) (nowIso : String) (nowDate : Val)
    (req : StepCompleteReq) (st : DBState) : Except ApiErr Dict × DBState :=
  match get_application_process st (.vstr req.application_id) with
  | none => (.error (.notFound "Application process not found"), st)
  | some process =>
    applyProcessUpdate st (dget process "id")
      (completeUpdateData nowIso nowDate st.users req process
        (if (findAndComplete (stepMatches req.step_id req.step_name)
              (markStepComplete nowIso req.admin_notes req.admin_id)
              (getStepHistory jsonParse process)).2.1 then
           (findAndComplete (stepMatches req.step_id req.step_name)
             (markStepComplete nowIso req.admin_notes req.admin_id)
             (getStepHistory jsonParse process)).1
         else
           (getStepHistory jsonParse process) ++
             [newCompletedStep nowIso req.step_id req.step_name req.admin_notes req.admin_id])
        (findAndComplete (stepMatches req.step_id req.step_name)
          (markStepComplete nowIso req.admin_notes req.admin_id)
          (getStepHistory jsonParse process)).2.2
        (getAuditTrail jsonParse process))

/-- The in-place rollback mutation of lines 463-473. -/
def markStepRollback (nowIso : String) (admin_id : Option String)
    (reason : Option String) (step : Dict) : Dict :=
  dset (dset (dset (dset (dset step
    "status" (.vstr "pending"))
    "rollback_reason" (.vstr (match reason with
      | some r => if r ≠ "" then r else "Rolled back by admin"
      | none => "Rolled back by admin")))
    "rolled_back_at" (.vstr nowIso))
    "rolled_back_by" (.vstr (match admin_id with
      | some a => if a ≠ "" then a else "admin"
      | none => "admin")))
    "previous_completion" (.vobj
      [("completed_by", dget step "completed_by"),
       ("completed_at", dget step "completed_at"),
       ("admin_notes", dget step "admin_notes")])

/-- The find loop of lines 452-475: the first matching step must carry
`completed_by == "human"`, otherwise the whole request is rejected before
any mutation. -/
def rollbackFind (pred : Dict → Bool) (f : Dict → Dict) :
    List Dict → Except Unit (List Dict × Bool)
  | [] => .ok ([], false)
  | s :: rest =>
    if pred s then
      if !(valEq (dget s "completed_by") (.vstr "human")) then .error ()
      else .ok (f s :: rest, true)
    else
      match rollbackFind pred f rest with
      | .error e => .error e
      | .ok (r, b) => .ok (s :: r, b)

/-- The update payload built by rollback (lines 480-524): unlike
completion, `currentStep` is reset to the rolled-back step's own name. -/
def rollbackUpdateData (nowIso : String) (nowDate : Val) (users : List (String × String))
    (req : StepRollbackReq) (process : Dict) (step_history2 : List Dict)
    (auditOld : List Dict) : Dict :=
  let ad0 := asObj (dget process "agentData")
  let agent_data :=
    if dhas ad0 "stepHistory" then ad0
    else dset ad0 "stepHistory" (.varr (step_history2.map Val.vobj))
  let admin_name := resolveAdminName users req.admin_id
  let audit_entry : Dict :=
    [("timestamp", .vstr nowIso), ("action", .vstr "step_rollback"),
     ("step_name", .vstr req.step_name), ("step_id", .vint req.step_id),
     ("admin_name", .vstr admin_name),
     ("admin_id", match req.admin_id with | some a => .vstr a | none => .null),
     ("rollback_reason", .vstr (match req.rollback_reason with
       | some r => if r ≠ "" then r else "Rolled back by admin"
       | none => "Rolled back by admin")),
     ("message", .vstr ("Admin " ++ admin_name ++ " rolled back step " ++ req.step_name))]
  let update_data : Dict :=
    [("stepHistory", .varr (step_history2.map Val.vobj)),
     ("agentData", .vobj agent_data),
     ("auditTrail", .varr ((auditOld ++ [audit_entry]).map Val.vobj)),
     ("lastUpdated", nowDate)]
  if valEq (dget process "currentStep") (.vstr req.step_name) ||
      valEq (dget process "currentStep") (.vstr (toString req.step_id)) then
    dset update_data "currentStep" (.vstr req.step_name)
  else update_data

/-- `rollback_step_completion` of `agent_integration.py` lines 420-529. -/
def rollback_step_completion (jsonParse : String → Val) (nowIso : String) (nowDate : Val)
    (req : StepRollbackReq) (st : DBState) : Except ApiErr Dict × DBState :=
  match get_application_process st (.vstr req.application_id) with
  | none => (.error (.notFound "Application process not found"), st)
  | some process =>
    match rollbackFind (stepMatches req.step_id req.step_name)
        (markStepRollback nowIso req.admin_id req.rollback_reason)
        (getStepHistory jsonParse process) with
    | .error _ =>
      (.error (.conflict "Step was not manually completed; only manually completed steps can be rolled back"), st)
    | .ok (sh1, step_found) =>
      if !step_found then
        (.error (.notFound "Step not found in step history"), st)
      else
        applyProcessUpdate st (dget process "id")
          (rollbackUpdateData nowIso nowDate st.users req process sh1
            (getAuditTrail jsonParse process))

/-- The status mapping and update payload of the review endpoint
(lines 236-247). -/
def reviewUpdateData (nowDate : Val) (req : ReviewReq) : Dict :=
  let base : Dict :=
    [("lastUpdated", nowDate),
     ("reviewReason", match req.reason with | some r => .vstr r | none => .null)]
  if req.action = "approve" then dset base "status" (.vstr "approved")
  else if req.action = "reject" then dset base "status" (.vstr "rejected")
  else if req.action = "request_docs" then dset base "status" (.vstr "ask_for_document")
  else if req.action = "escalate" then dset base "status" (.vstr "escalate_to_senior")
  else base

/-- `submit_review_decision` of `agent_integration.py` lines 215-275:
primary-table lookup with fallback to the claim table, status update on
whichever table matched, master-Claim propagation only for claim-tracked
records, and a fire-and-forget agent notification (no state effect).
The propagation here is not wrapped in try/except in the source; a failing
propagation is modelled as the 500-class error the source would raise. -/
def submit_review_decision (nowDate : Val) (req : ReviewReq) (st : DBState) :
    Except ApiErr String × DBState :=
  match get_application_process st (.vstr req.application_id) with
  | some process =>
    match crudUpdateById st.appProcesses (dget process "id")
        (reviewUpdateData nowDate req) with
    | none => (.error (.internal "Backend update error"), st)
    | some (_, rows) =>
      (.ok "Review action submitted successfully", { st with appProcesses := rows })
  | none =>
    match get_claim_application st (.vstr req.application_id) with
    | none => (.error (.notFound "Application process not found"), st)
    | some process =>
      match crudUpdateById st.claimApps (dget process "id")
          (reviewUpdateData nowDate req) with
      | none => (.error (.internal "Backend update error"), st)
      | some (_, rows) =>
        if pyTruthy (dget process "claim_record_id") &&
            dhas (reviewUpdateData nowDate req) "status" then
          match updateMasterClaimStatus st.masterClaims (dget process "claim_record_id")
              (dget (reviewUpdateData nowDate req) "status") with
          | some masters =>
            (.ok "Review action submitted successfully",
             { st with claimApps := rows, masterClaims := masters })
          | none => (.error (.internal "Master claim sync error"), { st with claimApps := rows })
        else
          (.ok "Review action submitted successfully", { st with claimApps := rows })

/-! ## Theorems -/

/-- Safe-named restatement: `rdropWhile` yields an initial segment of the list. -/
theorem rdropWhileStartSeg {α : Type} (p : α → Bool) (l : List α) : l.rdropWhile p <+: l :=
  List.rdropWhile_prefix p l

/-! ## Character-level lemmas for normalization -/
theorem lowerChar_of_catChar {c : Char} (h : isCatChar c = true) : lowerChar c = c := by
  unfold lowerChar
  unfold isCatChar at h
  simp only [Bool.or_eq_true, Bool.and_eq_true, decide_eq_true_eq, beq_iff_eq] at h
  rw [if_neg]
  omega

theorem replChar_space_of_catChar {c : Char} (h : isCatChar c = true) :
    replChar ' ' '-' c = c := by
  unfold replChar
  rw [if_neg]
  intro hc
  subst hc
  exact absurd h (by decide)

theorem replChar_underscore_of_catChar {c : Char} (h : isCatChar c = true) :
    replChar '_' '-' c = c := by
  unfold replChar
  rw [if_neg]
  intro hc
  subst hc
  exact absurd h (by decide)

theorem mem_collapseHyphens {c : Char} : ∀ {l : List Char},
    c ∈ collapseHyphens l → c ∈ l := by
  intro l
  induction l with
  | nil => intro h; exact absurd h (by simp [collapseHyphens])
  | cons a t ih =>
    cases t with
    | nil => intro h; simpa [collapseHyphens] using h
    | cons b rest =>
      intro h
      rw [collapseHyphens] at h
      by_cases hab : (a == '-' && b == '-') = true
      · rw [if_pos hab] at h
        exact List.mem_cons_of_mem a (ih h)
      · rw [if_neg hab] at h
        rcases List.mem_cons.mp h with h1 | h2
        · exact h1 ▸ List.mem_cons_self a _
        · exact List.mem_cons_of_mem a (ih h2)

theorem collapseHyphens_cons_head (x : Char) (xs : List Char) :
    ∃ t, collapseHyphens (x :: xs) = x :: t := by
  induction xs generalizing x with
  | nil => exact ⟨[], rfl⟩
  | cons y r ih =>
    rw [collapseHyphens]
    by_cases hxy : (x == '-' && y == '-') = true
    · rw [if_pos hxy]
      obtain ⟨t, ht⟩ := ih y
      refine ⟨t, ?_⟩
      have hx : x = '-' := by
        simp only [Bool.and_eq_true, beq_iff_eq] at hxy
        exact hxy.1
      have hy : y = '-' := by
        simp only [Bool.and_eq_true, beq_iff_eq] at hxy
        exact hxy.2
      rw [ht, hx, hy]
    · rw [if_neg hxy]
      exact ⟨collapseHyphens (y :: r), rfl⟩

theorem noDoubleHyphen_collapseHyphens : ∀ (l : List Char),
    noDoubleHyphen (collapseHyphens l) = true := by
  intro l
  induction l with
  | nil => rfl
  | cons a t ih =>
    cases t with
    | nil => rfl
    | cons b rest =>
      rw [collapseHyphens]
      by_cases hab : (a == '-' && b == '-') = true
      · rw [if_pos hab]; exact ih
      · rw [if_neg hab]
        obtain ⟨t2, ht2⟩ := collapseHyphens_cons_head b rest
        rw [ht2]
        rw [ht2] at ih
        have hf : (a == '-' && b == '-') = false := by
          cases hx : (a == '-' && b == '-') with
          | false => rfl
          | true => exact absurd hx hab
        rw [noDoubleHyphen, hf]
        simpa using ih

theorem collapseHyphens_of_noDoubleHyphen : ∀ {l : List Char},
    noDoubleHyphen l = true → collapseHyphens l = l := by
  intro l
  induction l with
  | nil => intro _; rfl
  | cons a t ih =>
    cases t with
    | nil => intro _; rfl
    | cons b rest =>
      intro h
      rw [noDoubleHyphen, Bool.and_eq_true] at h
      have hf : (a == '-' && b == '-') = false := by
        cases hx : (a == '-' && b == '-') with
        | false => rfl
        | true => rw [hx] at h; exact absurd h.1 (by decide)
      rw [collapseHyphens, if_neg (by simp [hf]), ih h.2]

theorem noDoubleHyphen_tail {a : Char} {l : List Char}
    (h : noDoubleHyphen (a :: l) = true) : noDoubleHyphen l = true := by
  cases l with
  | nil => rfl
  | cons b r =>
    rw [noDoubleHyphen, Bool.and_eq_true] at h
    exact h.2

theorem noDoubleHyphen_suffix : ∀ {l₁ l₂ : List Char},
    noDoubleHyphen (l₁ ++ l₂) = true → noDoubleHyphen l₂ = true := by
  intro l₁
  induction l₁ with
  | nil => intro l₂ h; simpa using h
  | cons a t ih =>
    intro l₂ h
    exact ih (noDoubleHyphen_tail h)

theorem noDoubleHyphen_leftPart : ∀ {l₁ l₂ : List Char},
    noDoubleHyphen (l₁ ++ l₂) = true → noDoubleHyphen l₁ = true := by
  intro l₁
  induction l₁ with
  | nil => intro _ _; rfl
  | cons a t ih =>
    intro l₂ h
    cases t with
    | nil => rfl
    | cons b rest =>
      rw [List.cons_append, List.cons_append, noDoubleHyphen, Bool.and_eq_true] at h
      rw [noDoubleHyphen, Bool.and_eq_true]
      exact ⟨h.1, ih (by simpa using h.2)⟩

theorem mapIdOn {α : Type} {f : α → α} : ∀ {l : List α}, (∀ a ∈ l, f a = a) → l.map f = l := by
  intro l
  induction l with
  | nil => intro _; rfl
  | cons a t ih =>
    intro h
    rw [List.map_cons, h a (List.mem_cons_self a t), ih fun b hb => h b (List.mem_cons_of_mem a hb)]

theorem head?_of_startSeg {α : Type} {l₁ l₂ : List α} (h : l₁ <+: l₂) (hne : l₁ ≠ []) :
    l₂.head? = l₁.head? := by
  obtain ⟨t, rfl⟩ := h
  cases l₁ with
  | nil => exact absurd rfl hne
  | cons a s => rfl

theorem dropWhile_eq_self_of_head? {p : Char → Bool} {l : List Char}
    (h : ∀ c, l.head? = some c → p c = false) : l.dropWhile p = l := by
  cases l with
  | nil => rfl
  | cons a t =>
    rw [List.dropWhile_cons, if_neg]
    simp [h a rfl]

theorem mem_stripHyphens {c : Char} {l : List Char} (h : c ∈ stripHyphens l) : c ∈ l := by
  unfold stripHyphens at h
  have h1 := (rdropWhileStartSeg (· == '-') (l.dropWhile (· == '-'))).sublist.subset h
  exact (List.dropWhile_suffix (· == '-')).sublist.subset h1

theorem normChars_mem_catChar {c : Char} {l : List Char} (h : c ∈ normChars l) :
    isCatChar c = true := by
  unfold normChars at h
  exact List.of_mem_filter (mem_collapseHyphens (mem_stripHyphens h))

theorem noDoubleHyphen_stripHyphens {l : List Char} (h : noDoubleHyphen l = true) :
    noDoubleHyphen (stripHyphens l) = true := by
  unfold stripHyphens
  obtain ⟨t1, ht1⟩ := List.dropWhile_suffix (p := (· == '-')) (l := l)
  have h1 : noDoubleHyphen (l.dropWhile (· == '-')) = true :=
    noDoubleHyphen_suffix (ht1 ▸ h)
  obtain ⟨t2, ht2⟩ := rdropWhileStartSeg (· == '-') (l.dropWhile (· == '-'))
  exact noDoubleHyphen_leftPart (ht2 ▸ h1)

theorem normChars_noDoubleHyphen (l : List Char) : noDoubleHyphen (normChars l) = true :=
  noDoubleHyphen_stripHyphens (noDoubleHyphen_collapseHyphens _)

theorem head?_dropWhile_not {p : Char → Bool} :
    ∀ {l : List Char} {c : Char}, (l.dropWhile p).head? = some c → p c = false := by
  intro l
  induction l with
  | nil => intro c h; cases h
  | cons a t ih =>
    intro c h
    rw [List.dropWhile_cons] at h
    by_cases hp : p a = true
    · rw [if_pos hp] at h; exact ih h
    · rw [if_neg hp] at h
      have : a = c := by
        simpa using h
      subst this
      simpa using hp

theorem head?_stripHyphens_not {l : List Char} {c : Char}
    (h : (stripHyphens l).head? = some c) : (c == '-') = false := by
  unfold stripHyphens at h
  have hne : (l.dropWhile (· == '-')).rdropWhile (· == '-') ≠ [] := by
    intro hnil
    rw [hnil] at h
    cases h
  have hpre := rdropWhileStartSeg (· == '-') (l.dropWhile (· == '-'))
  have hh : (l.dropWhile (· == '-')).head? = some c := by
    rw [head?_of_startSeg hpre hne]
    exact h
  exact head?_dropWhile_not (p := (· == '-')) hh

theorem stripHyphens_normChars (l : List Char) :
    stripHyphens (normChars l) = normChars l := by
  unfold stripHyphens
  have hdrop : (normChars l).dropWhile (· == '-') = normChars l := by
    apply dropWhile_eq_self_of_head?
    intro c hc
    exact head?_stripHyphens_not (l := collapseHyphens
      ((((l.map lowerChar).map (replChar ' ' '-')).map (replChar '_' '-')).filter isCatChar)) hc
  rw [hdrop]
  unfold normChars stripHyphens
  exact List.rdropWhile_idempotent _ _

theorem normChars_idem (l : List Char) : normChars (normChars l) = normChars l := by
  conv_lhs => rw [normChars]
  have hmem : ∀ c ∈ normChars l, isCatChar c = true := fun c hc => normChars_mem_catChar hc
  rw [mapIdOn (fun c hc => lowerChar_of_catChar (hmem c hc))]
  rw [mapIdOn (fun c hc => replChar_space_of_catChar (hmem c hc))]
  rw [mapIdOn (fun c hc => replChar_underscore_of_catChar (hmem c hc))]
  rw [List.filter_eq_self.mpr hmem]
  rw [collapseHyphens_of_noDoubleHyphen (normChars_noDoubleHyphen l)]
  exact stripHyphens_normChars l

/-- C8: category normalization is a pure total function (a Lean function by
construction), maps "FIR Copy (if accidental)" to "fir-copy-if-accidental"
and "Death Certificate" to "death-certificate", and is idempotent on every
string. -/
theorem normalize_category_props :
    normalize_category_for_folder "FIR Copy (if accidental)" = "fir-copy-if-accidental" ∧
    normalize_category_for_folder "Death Certificate" = "death-certificate" ∧
    ∀ x : String,
      normalize_category_for_folder (normalize_category_for_folder x) =
        normalize_category_for_folder x := by
  refine ⟨by decide, by decide, ?_⟩
  intro x
  show String.mk (normChars (normChars x.data)) = String.mk (normChars x.data)
  exact congrArg String.mk (normChars_idem x.data)

theorem lookup_val_mem {α β : Type} [BEq α] [LawfulBEq α] :
    ∀ {l : List (α × β)} {k : α} {v : β}, l.lookup k = some v → v ∈ l.map Prod.snd := by
  intro l
  induction l with
  | nil => intro k v h; cases h
  | cons p t ih =>
    intro k v h
    rw [List.lookup] at h
    cases hk : (k == p.1) with
    | true => rw [hk] at h; rw [List.map_cons]; exact (Option.some.injEq _ _ ▸ h) ▸
        List.mem_cons_self p.2 _
    | false => rw [hk] at h; exact List.mem_cons_of_mem _ (ih h)

/-- C9: every category id in the image of the display-name mapping is a member
of that claim type's valid-category set. -/
theorem category_mapping_ids_valid :
    ∀ ct nm cid, get_category_id ct nm = some cid → is_valid_category ct cid = true := by
  intro ct nm cid h
  by_cases h1 : ct = "life"
  · subst h1
    have h2 : LIFE_MAPPING.lookup nm = some cid := h
    have h3 : ∀ v ∈ LIFE_MAPPING.map Prod.snd, is_valid_category "life" v = true := by decide
    exact h3 cid (lookup_val_mem h2)
  by_cases h2 : ct = "health"
  · subst h2
    have h2a : HEALTH_MAPPING.lookup nm = some cid := h
    have h3 : ∀ v ∈ HEALTH_MAPPING.map Prod.snd, is_valid_category "health" v = true := by decide
    exact h3 cid (lookup_val_mem h2a)
  by_cases h3 : ct = "car"
  · subst h3
    have h3a : CAR_MAPPING.lookup nm = some cid := h
    have h3b : ∀ v ∈ CAR_MAPPING.map Prod.snd, is_valid_category "car" v = true := by decide
    exact h3b cid (lookup_val_mem h3a)
  · exfalso
    have b1 : (ct == "life") = false := beq_eq_false_iff_ne.mpr h1
    have b2 : (ct == "health") = false := beq_eq_false_iff_ne.mpr h2
    have b3 : (ct == "car") = false := beq_eq_false_iff_ne.mpr h3
    unfold get_category_id CATEGORY_MAPPING at h
    simp only [List.lookup, b1, b2, b3] at h
    cases h

/-- Witness for C9 at a concrete registry entry. -/
theorem category_mapping_ids_valid_witness :
    get_category_id "life" "FIR Copy (if accidental)" = some "fir-copy" ∧
    is_valid_category "life" "fir-copy" = true :=
  ⟨by decide, category_mapping_ids_valid "life" "FIR Copy (if accidental)" "fir-copy" (by decide)⟩

/-- C1 counterexample: the claim asserts `derive` returns `claims/{c}` for
*every* claimId `c` when category is absent, but the code's `if claimId:`
truthiness test routes `claimId = 0` to the pending branch. -/
theorem derive_folder_path_claim_counterexample :
    derive_folder_path 1 "claim_document" (some 0) none ≠ "claims/0" ∧
    derive_folder_path 1 "claim_document" (some 0) none = "claims/pending/1" := by
  constructor
  · decide
  · decide

/-- C1 (amended): the claimed algorithm holds once "claimId present" and
"category present" are read through Python truthiness — a claimId of `0` and
an empty-string category are treated as absent, exactly as the code's
`if claimId:` / `if category:` tests do.  For every non-claim documentType
(including unrecognized ones, which default to the "other" folder) the result
is `users/{u}/{folder}` and ignores claimId and category entirely. -/
theorem derive_folder_path_amended (u : Int) (t : String) (c : Option Int)
    (cat : Option String) :
    (t ≠ "claim_document" →
      derive_folder_path u t c cat = "users/" ++ toString u ++ "/" ++ folderForType t ∧
      derive_folder_path u t c cat = derive_folder_path u t none none) ∧
    (t = "claim_document" →
      (∀ k, c = some k → k ≠ 0 →
        (cat = none ∨ cat = some "" →
          derive_folder_path u t c cat = "claims/" ++ toString k) ∧
        (∀ s, cat = some s → s ≠ "" →
          derive_folder_path u t c cat =
            "claims/" ++ toString k ++ "/" ++ normalize_category_for_folder s)) ∧
      ((c = none ∨ c = some 0) →
        (cat = none ∨ cat = some "" →
          derive_folder_path u t c cat = "claims/pending/" ++ toString u) ∧
        (∀ s, cat = some s → s ≠ "" →
          derive_folder_path u t c cat =
            "claims/pending/" ++ toString u ++ "/" ++ normalize_category_for_folder s))) := by
  constructor
  · intro ht
    constructor
    · simp only [derive_folder_path, if_neg ht]
    · simp only [derive_folder_path, if_neg ht]
  · intro ht
    subst ht
    constructor
    · intro k hk hk0
      subst hk
      have htru : pyTruthyOptInt (some k) = true := by
        simp [pyTruthyOptInt, hk0]
      constructor
      · intro hcat
        have hcf : pyTruthyOptStr cat = false := by
          rcases hcat with h | h <;> subst h <;> simp [pyTruthyOptStr]
        unfold derive_folder_path
        rw [if_pos rfl, htru, if_pos rfl, hcf]
        rfl
      · intro s hs hs0
        subst hs
        have hct : pyTruthyOptStr (some s) = true := by
          simp [pyTruthyOptStr, hs0]
        unfold derive_folder_path
        rw [if_pos rfl, htru, if_pos rfl, hct]
        rfl
    · intro hc
      have hcf : pyTruthyOptInt c = false := by
        rcases hc with h | h <;> subst h <;> simp [pyTruthyOptInt]
      constructor
      · intro hcat
        have hcatf : pyTruthyOptStr cat = false := by
          rcases hcat with h | h <;> subst h <;> simp [pyTruthyOptStr]
        unfold derive_folder_path
        rw [if_pos rfl, hcf, hcatf]
        rfl
      · intro s hs hs0
        subst hs
        have hct : pyTruthyOptStr (some s) = true := by
          simp [pyTruthyOptStr, hs0]
        unfold derive_folder_path
        rw [if_pos rfl, hcf, hct]
        rfl

/-- Witness for the amended C1 at concrete inputs covering both the non-claim
and the claim-document branches. -/
theorem derive_folder_path_amended_witness :
    derive_folder_path 123 "kyc_document" none none = "users/123/kyc" ∧
    derive_folder_path 123 "totally_unknown" (some 7) (some "x") = "users/123/other" ∧
    derive_folder_path 123 "claim_document" (some 456) (some "Death Certificate") =
      "claims/456/death-certificate" ∧
    derive_folder_path 123 "claim_document" none (some "Claim Form") =
      "claims/pending/123/claim-form" := by
  refine ⟨?_, ?_, ?_, ?_⟩
  · exact ((derive_folder_path_amended 123 "kyc_document" none none).1 (by decide)).1
  · exact ((derive_folder_path_amended 123 "totally_unknown" (some 7) (some "x")).1
      (by decide)).1
  · have := (((derive_folder_path_amended 123 "claim_document" (some 456)
      (some "Death Certificate")).2 rfl).1 456 rfl (by decide)).2
      "Death Certificate" rfl (by decide)
    rw [this]
    decide
  · have := (((derive_folder_path_amended 123 "claim_document" none
      (some "Claim Form")).2 rfl).2 (Or.inl rfl)).2 "Claim Form" rfl (by decide)
    rw [this]
    decide

theorem get?_one_of_two_le {α : Type} {l : List α} (h : 2 ≤ l.length) :
    ∃ b, l.get? 1 = some b := by
  cases l with
  | nil => simp at h
  | cons a t =>
    cases t with
    | nil => simp at h
    | cons b r => exact ⟨b, rfl⟩

theorem has_category_folder_extract_none {url : String}
    (h : extract_folder_from_url url = none) : has_category_folder url = false := by
  unfold has_category_folder
  rw [h]

theorem has_category_folder_extract_some {url f : String}
    (h : extract_folder_from_url url = some f) :
    has_category_folder url =
      (if f = "" then false
       else
        let parts := f.data.splitOn '/'
        if 3 ≤ parts.length ∧ (parts.get? 0).getD [] = "claims".data then
          if (parts.get? 1).getD [] = "pending".data then decide (4 ≤ parts.length)
          else decide (3 ≤ parts.length)
        else false) := by
  unfold has_category_folder
  rw [h]

/-- C5: `has_category_folder` returns true exactly when the folder extracted
from the URL lies under the `claims/` prefix with at least 3 segments in the
claim-bound shape or at least 4 in the pending shape; it returns false for
every shorter (legacy) shape, for non-claims folders, and when no folder can
be extracted. -/
theorem has_category_folder_iff (url : String) :
    has_category_folder url = true ↔ hasCategoryShapeSpec url := by
  cases hres : extract_folder_from_url url with
  | none =>
    rw [has_category_folder_extract_none hres]
    unfold hasCategoryShapeSpec
    rw [hres]
    simp
  | some f =>
    rw [has_category_folder_extract_some hres]
    unfold hasCategoryShapeSpec
    rw [hres]
    by_cases hf : f = ""
    · subst hf
      rw [if_pos rfl]
      constructor
      · intro h; cases h
      · rintro ⟨g, hg, hhead, _⟩
        rw [Option.some.injEq] at hg
        subst hg
        exact absurd hhead (by decide)
    · rw [if_neg hf]
      constructor
      · intro h
        by_cases hc : 3 ≤ (f.data.splitOn '/').length ∧
            ((f.data.splitOn '/').get? 0).getD [] = "claims".data
        · rw [if_pos hc] at h
          obtain ⟨hlen, hget0⟩ := hc
          have hne : f.data.splitOn '/' ≠ [] := by
            intro h0
            rw [h0] at hlen
            simp at hlen
          have hhead : (f.data.splitOn '/').head? = some "claims".data := by
            cases hq : f.data.splitOn '/' with
            | nil => exact absurd hq hne
            | cons a t =>
              rw [hq] at hget0
              simpa using hget0
          refine ⟨f, rfl, hhead, ?_⟩
          by_cases hp : ((f.data.splitOn '/').get? 1).getD [] = "pending".data
          · rw [if_pos hp] at h
            left
            have hlen4 : 4 ≤ (f.data.splitOn '/').length := of_decide_eq_true h
            obtain ⟨b, hb⟩ := get?_one_of_two_le
              (l := f.data.splitOn '/') (by omega)
            rw [hb]
            rw [hb] at hp
            simp only [Option.getD_some] at hp
            exact ⟨by rw [hp], hlen4⟩
          · rw [if_neg hp] at h
            right
            refine ⟨?_, of_decide_eq_true h⟩
            intro hx
            rw [hx] at hp
            simp at hp
        · rw [if_neg hc] at h
          cases h
      · rintro ⟨g, hg, hhead, hshape⟩
        rw [Option.some.injEq] at hg
        subst hg
        have hlen3 : 3 ≤ (f.data.splitOn '/').length := by
          rcases hshape with ⟨_, h4⟩ | ⟨_, h3⟩
          · omega
          · exact h3
        have hget0 : ((f.data.splitOn '/').get? 0).getD [] = "claims".data := by
          cases hq : f.data.splitOn '/' with
          | nil => rw [hq] at hlen3; simp at hlen3
          | cons a t =>
            rw [hq] at hhead
            simp only [List.head?] at hhead
            rw [Option.some.injEq] at hhead
            simpa using hhead
        rw [if_pos ⟨hlen3, hget0⟩]
        rcases hshape with ⟨hp1, h4⟩ | ⟨hp1, h3⟩
        · rw [if_pos (by rw [hp1]; rfl)]
          exact decide_eq_true h4
        · rw [if_neg ?hne]
          · exact decide_eq_true h3
          case hne =>
            intro hx
            obtain ⟨b, hb⟩ := get?_one_of_two_le (l := f.data.splitOn '/') (by omega)
            rw [hb] at hx
            simp only [Option.getD_some] at hx
            rw [hb, hx] at hp1
            exact hp1 rfl

/-! ## Lemmas about the Python split models -/
theorem isPrefixOf_true_iff {l₁ l₂ : List Char} : l₁.isPrefixOf l₂ = true ↔ l₁ <+: l₂ :=
  List.isPrefixOf_iff_prefix

theorem within_of_startSeg {l₁ l₂ : List Char} (h : l₁ <+: l₂) : l₁ <:+: l₂ := by
  obtain ⟨t, rfl⟩ := h
  exact ⟨[], t, rfl⟩

theorem containsSub_iff {sep s : List Char} : containsSub sep s = true ↔ sep <:+: s := by
  unfold containsSub
  rw [List.any_eq_true]
  constructor
  · rintro ⟨t, ht, hp⟩
    rw [List.mem_tails] at ht
    exact List.infix_iff_prefix_suffix.mpr ⟨t, isPrefixOf_true_iff.mp hp, ht⟩
  · intro h
    obtain ⟨t, hpre, hsuf⟩ := List.infix_iff_prefix_suffix.mp h
    exact ⟨t, (List.mem_tails _ _).mpr hsuf, isPrefixOf_true_iff.mpr hpre⟩

theorem startSeg_take {α : Type} {l₁ l₂ : List α} : l₁ <+: l₂ ↔ l₂.take l₁.length = l₁ := by
  constructor
  · rintro ⟨t, rfl⟩
    exact List.take_left l₁ t
  · intro h
    refine ⟨l₂.drop l₁.length, ?_⟩
    have hsplit := List.take_append_drop l₁.length l₂
    rw [h] at hsplit
    exact hsplit

theorem isPrefixOf_append_trunc {l a b : List Char} (hl : l.length ≤ a.length)
    (h : l.isPrefixOf (a ++ b) = true) : l.isPrefixOf a = true := by
  rw [isPrefixOf_true_iff] at h ⊢
  rw [startSeg_take] at h ⊢
  rw [List.take_append_of_le_length hl] at h
  exact h

theorem pySplitAux_nil (sep : List Char) (f : Nat) : pySplitAux sep f [] = [[]] := by
  cases f <;> rfl

theorem pySplitAux_fuel {sep : List Char} (hsep : sep ≠ []) :
    ∀ (f₁ f₂ : Nat) (s : List Char), s.length ≤ f₁ → s.length ≤ f₂ →
      pySplitAux sep f₁ s = pySplitAux sep f₂ s := by
  intro f₁
  induction f₁ with
  | zero =>
    intro f₂ s h1 _
    have hs : s = [] := List.length_eq_zero.mp (Nat.le_zero.mp h1)
    subst hs
    rw [pySplitAux_nil, pySplitAux_nil]
  | succ f ih =>
    intro f₂ s h1 h2
    cases s with
    | nil => rw [pySplitAux_nil, pySplitAux_nil]
    | cons c rest =>
      cases f₂ with
      | zero => simp at h2
      | succ f₂ =>
        have hseplen : 1 ≤ sep.length := by
          cases sep with
          | nil => exact absurd rfl hsep
          | cons a b => simp
        rw [List.length_cons] at h1 h2
        show pySplitAux sep (f + 1) (c :: rest) = pySplitAux sep (f₂ + 1) (c :: rest)
        rw [pySplitAux, pySplitAux]
        by_cases hpre : sep.isPrefixOf (c :: rest) = true
        · rw [if_pos hpre, if_pos hpre]
          have hd : ((c :: rest).drop sep.length).length ≤ f ∧
              ((c :: rest).drop sep.length).length ≤ f₂ := by
            rw [List.length_drop, List.length_cons]
            omega
          rw [ih f₂ _ hd.1 hd.2]
        · rw [if_neg hpre, if_neg hpre, ih f₂ rest (by omega) (by omega)]

theorem pySplit_nil (sep : List Char) : pySplit sep [] = [[]] := rfl

theorem pySplit_pos {sep : List Char} (hsep : sep ≠ []) (c : Char) (rest : List Char)
    (hpre : sep.isPrefixOf (c :: rest) = true) :
    pySplit sep (c :: rest) = [] :: pySplit sep ((c :: rest).drop sep.length) := by
  unfold pySplit
  rw [List.length_cons, pySplitAux, if_pos hpre]
  have hseplen : 1 ≤ sep.length := by
    cases sep with
    | nil => exact absurd rfl hsep
    | cons a b => simp
  rw [pySplitAux_fuel hsep rest.length ((c :: rest).drop sep.length).length
    ((c :: rest).drop sep.length)
    (by rw [List.length_drop, List.length_cons]; omega) (le_refl _)]

theorem pySplit_ne_nil (sep : List Char) : ∀ (f : Nat) (s : List Char),
    pySplitAux sep f s ≠ [] := by
  intro f
  induction f with
  | zero =>
    intro s
    cases s with
    | nil => simp [pySplitAux_nil]
    | cons c rest => simp [pySplitAux]
  | succ f ih =>
    intro s
    cases s with
    | nil => simp [pySplitAux_nil]
    | cons c rest =>
      rw [pySplitAux]
      by_cases hpre : sep.isPrefixOf (c :: rest) = true
      · rw [if_pos hpre]; simp
      · rw [if_neg hpre]
        cases hx : pySplitAux sep f rest with
        | nil => simp
        | cons x xs => simp

theorem pySplit_neg {sep : List Char} (c : Char) (rest : List Char)
    (hpre : sep.isPrefixOf (c :: rest) = false) {x : List Char} {xs : List (List Char)}
    (hx : pySplit sep rest = x :: xs) :
    pySplit sep (c :: rest) = (c :: x) :: xs := by
  unfold pySplit
  rw [List.length_cons, pySplitAux, if_neg (by simp [hpre])]
  unfold pySplit at hx
  rw [hx]

theorem pySplit_of_not_within {sep : List Char} (_hsep : sep ≠ []) :
    ∀ {s : List Char}, ¬ sep <:+: s → pySplit sep s = [s] := by
  intro s
  induction s with
  | nil => intro _; exact pySplit_nil sep
  | cons c rest ih =>
    intro h
    have hpre : sep.isPrefixOf (c :: rest) = false := by
      cases hp : sep.isPrefixOf (c :: rest) with
      | false => rfl
      | true => exact absurd (within_of_startSeg (isPrefixOf_true_iff.mp hp)) h
    have hrest : ¬ sep <:+: rest := by
      intro hI
      exact h (hI.trans ⟨[c], [], by simp⟩)
    rw [pySplit_neg c rest hpre (ih hrest)]

theorem pySplit_boundary {sep : List Char} (hsep : sep ≠ []) :
    ∀ (p t : List Char),
      (∀ q ∈ p.tails, q ≠ [] → sep.isPrefixOf (q ++ sep) = false) →
      pySplit sep (p ++ sep ++ t) = p :: pySplit sep t := by
  intro p
  induction p with
  | nil =>
    intro t _
    rw [List.nil_append]
    cases sep with
    | nil => exact absurd rfl hsep
    | cons a srest =>
      rw [List.cons_append]
      rw [pySplit_pos hsep a (srest ++ t)
        (by rw [← List.cons_append]; exact isPrefixOf_true_iff.mpr ⟨t, rfl⟩)]
      congr 1
      rw [List.length_cons, List.drop_succ_cons, List.drop_left]
  | cons c p' ih =>
    intro t hocc
    have hq : sep.isPrefixOf ((c :: p') ++ sep) = false :=
      hocc (c :: p') ((List.mem_tails _ _).mpr (List.suffix_refl _)) (by simp)
    have hpre : sep.isPrefixOf ((c :: p') ++ sep ++ t) = false := by
      cases hp : sep.isPrefixOf ((c :: p') ++ sep ++ t) with
      | false => rfl
      | true =>
        have := isPrefixOf_append_trunc (a := (c :: p') ++ sep) (b := t)
          (by simp only [List.length_append, List.length_cons]; omega) hp
        rw [this] at hq
        cases hq
    have hocc' : ∀ q ∈ p'.tails, q ≠ [] → sep.isPrefixOf (q ++ sep) = false := by
      intro q hq' hne
      refine hocc q ?_ hne
      rw [List.tails_cons]
      exact List.mem_cons_of_mem _ hq'
    have hx := ih t hocc'
    have hshape : (c :: p') ++ sep ++ t = c :: (p' ++ sep ++ t) := by simp
    rw [hshape]
    rw [hshape] at hpre
    exact pySplit_neg c (p' ++ sep ++ t) hpre hx

theorem splitOnP_append_sep (p : Char → Bool) (d : Char) (hd : p d = true) :
    ∀ (a b : List Char), (a ++ d :: b).splitOnP p = a.splitOnP p ++ b.splitOnP p := by
  intro a
  induction a with
  | nil =>
    intro b
    rw [List.nil_append, List.splitOnP_cons, if_pos hd, List.splitOnP_nil]
    rfl
  | cons c a' ih =>
    intro b
    rw [List.cons_append, List.splitOnP_cons, List.splitOnP_cons]
    by_cases hc : p c = true
    · rw [if_pos hc, if_pos hc, ih]
      rfl
    · rw [if_neg hc, if_neg hc, ih]
      cases hx : a'.splitOnP p with
      | nil => exact absurd hx (List.splitOnP_ne_nil p a')
      | cons x xs => simp [List.modifyHead]

theorem splitOn_append_single (d : Char) (a b : List Char) :
    (a ++ d :: b).splitOn d = a.splitOn d ++ b.splitOn d :=
  splitOnP_append_sep (· == d) d (by simp) a b

theorem splitOn_single_of_not_mem {d : Char} {l : List Char} (h : d ∉ l) :
    l.splitOn d = [l] := by
  apply List.splitOnP_eq_single
  intro x hx hpx
  rw [eq_of_beq hpx] at hx
  exact h hx

theorem joinSlash_dropLast_split (key fname : List Char) (hfn : '/' ∉ fname) :
    joinSlash (((key ++ '/' :: fname).splitOn '/').dropLast) = key := by
  rw [splitOn_append_single, splitOn_single_of_not_mem hfn, List.dropLast_concat]
  unfold joinSlash
  exact List.intercalate_splitOn key '/'

theorem string_mk_data (s : String) : String.mk s.data = s := by
  cases s
  rfl

theorem append_ne_nil_left {α : Type} {l₁ l₂ : List α} (h : l₁ ≠ []) : l₁ ++ l₂ ≠ [] := by
  cases l₁ with
  | nil => exact absurd rfl h
  | cons a t => simp

theorem string_append_data_ne_nil {a : String} (b : String) (h : a.data ≠ []) :
    (a ++ b).data ≠ [] := by
  rw [String.data_append]
  exact append_ne_nil_left h

theorem derive_folder_path_data_ne_nil (u : Int) (t : String) (c : Option Int)
    (cat : Option String) : (derive_folder_path u t c cat).data ≠ [] := by
  unfold derive_folder_path
  by_cases ht : t = "claim_document"
  · rw [if_pos ht]
    by_cases h1 : pyTruthyOptInt c = true
    · rw [if_pos h1]
      by_cases h2 : pyTruthyOptStr cat = true
      · rw [if_pos h2]
        exact string_append_data_ne_nil _ (string_append_data_ne_nil _
          (string_append_data_ne_nil _ (by decide)))
      · rw [if_neg h2]
        exact string_append_data_ne_nil _ (by decide)
    · rw [if_neg h1]
      by_cases h2 : pyTruthyOptStr cat = true
      · rw [if_pos h2]
        exact string_append_data_ne_nil _ (string_append_data_ne_nil _
          (string_append_data_ne_nil _ (by decide)))
      · rw [if_neg h2]
        exact string_append_data_ne_nil _ (by decide)
  · rw [if_neg ht]
    exact string_append_data_ne_nil _ (string_append_data_ne_nil _
      (string_append_data_ne_nil _ (by decide)))

theorem localUploadUrl_data (key fname : String) :
    (localUploadUrl key fname).data =
      "http://localhost:8000".data ++ sepUploads ++ (key.data ++ '/' :: fname.data) := by
  show ("http://localhost:8000/uploads/" ++ key ++ "/" ++ fname).data = _
  rw [String.data_append, String.data_append, String.data_append]
  have h1 : "http://localhost:8000/uploads/".data =
      "http://localhost:8000".data ++ sepUploads := by decide
  have h2 : "/".data = ['/'] := by decide
  rw [h1, h2]
  simp [List.append_assoc]

theorem azureBlobUrl_data (key fname : String) :
    (azureBlobUrl key fname).data =
      "https://account.".data ++ sepBlobHostSlash ++
        ("insurance-documents".data ++ '/' :: (key.data ++ '/' :: fname.data)) := by
  show ("https://account.blob.core.windows.net/insurance-documents/" ++ key ++ "/" ++ fname).data = _
  rw [String.data_append, String.data_append, String.data_append]
  have h1 : "https://account.blob.core.windows.net/insurance-documents/".data =
      "https://account.".data ++ sepBlobHostSlash ++
        ("insurance-documents".data ++ ['/']) := by decide
  have h2 : "/".data = ['/'] := by decide
  rw [h1, h2]
  simp [List.append_assoc]

theorem extract_local_roundtrip (key fname : String) (hkey : key.data ≠ [])
    (hfn : '/' ∉ fname.data)
    (hocc : ¬ sepUploads <:+: (key.data ++ '/' :: fname.data)) :
    extract_folder_from_url (localUploadUrl key fname) = some key := by
  have hdata := localUploadUrl_data key fname
  have hsub : containsSub sepUploads (localUploadUrl key fname).data = true :=
    containsSub_iff.mpr ⟨"http://localhost:8000".data, key.data ++ '/' :: fname.data, hdata.symm⟩
  have hsplit : pySplit sepUploads (localUploadUrl key fname).data =
      ["http://localhost:8000".data, key.data ++ '/' :: fname.data] := by
    rw [hdata, pySplit_boundary (by decide) _ _ (by decide),
      pySplit_of_not_within (by decide) hocc]
  unfold extract_folder_from_url
  rw [if_pos hsub, hsplit]
  simp only [List.length_cons, List.length_nil, List.get?, Option.getD_some]
  rw [if_pos (by omega)]
  rw [joinSlash_dropLast_split key.data fname.data hfn]
  rw [if_pos hkey, string_mk_data]

theorem extract_azure_roundtrip (key fname : String) (hkey : key.data ≠ [])
    (hfn : '/' ∉ fname.data)
    (hup : ¬ sepUploads <:+: (azureBlobUrl key fname).data)
    (hbl : ¬ sepBlobHostSlash <:+:
      ("insurance-documents".data ++ '/' :: (key.data ++ '/' :: fname.data))) :
    extract_folder_from_url (azureBlobUrl key fname) = some key := by
  have hdata := azureBlobUrl_data key fname
  have hupf : containsSub sepUploads (azureBlobUrl key fname).data = false := by
    cases hx : containsSub sepUploads (azureBlobUrl key fname).data with
    | false => rfl
    | true => exact absurd (containsSub_iff.mp hx) hup
  have hhostEq : sepBlobHostSlash = sepBlobHost ++ ['/'] := by decide
  have hsubHost : containsSub sepBlobHost (azureBlobUrl key fname).data = true := by
    apply containsSub_iff.mpr
    refine ⟨"https://account.".data,
      '/' :: ("insurance-documents".data ++ '/' :: (key.data ++ '/' :: fname.data)), ?_⟩
    rw [hdata, hhostEq]
    simp [List.append_assoc]
  have hsplit : pySplit sepBlobHostSlash (azureBlobUrl key fname).data =
      ["https://account.".data,
       "insurance-documents".data ++ '/' :: (key.data ++ '/' :: fname.data)] := by
    rw [hdata, pySplit_boundary (by decide) _ _ (by decide),
      pySplit_of_not_within (by decide) hbl]
  have hppnn : key.data.splitOn '/' ≠ [] := List.splitOnP_ne_nil _ _
  have hpp : ("insurance-documents".data ++ '/' :: (key.data ++ '/' :: fname.data)).splitOn '/' =
      "insurance-documents".data :: (key.data.splitOn '/' ++ [fname.data]) := by
    rw [splitOn_append_single '/' "insurance-documents".data (key.data ++ '/' :: fname.data),
      splitOn_append_single '/' key.data fname.data,
      splitOn_single_of_not_mem (show '/' ∉ "insurance-documents".data by decide),
      splitOn_single_of_not_mem hfn]
    rfl
  unfold extract_folder_from_url
  rw [if_neg (by rw [hupf]; exact Bool.false_ne_true), if_pos hsubHost, hsplit]
  simp only [List.length_cons, List.length_nil, List.get?, Option.getD_some]
  rw [if_pos (by omega)]
  rw [hpp]
  have hlen : 2 < ("insurance-documents".data :: (key.data.splitOn '/' ++ [fname.data])).length := by
    rw [List.length_cons, List.length_append, List.length_cons, List.length_nil]
    cases hq : key.data.splitOn '/' with
    | nil => exact absurd hq hppnn
    | cons x xs => simp [List.length_cons]
  rw [if_pos hlen]
  rw [List.drop_succ_cons, List.drop_zero, List.dropLast_concat]
  unfold joinSlash
  rw [List.intercalate_splitOn key.data '/']
  rw [if_pos hkey, string_mk_data]

set_option maxRecDepth 10000 in
/-- C4 counterexample: the key `claims/5/uploads` is produced by
`derive_folder_path` (category "uploads"), but the local URL built from it
contains a second `/uploads/` marker, so `extract_folder_from_url` splits at
the wrong place and returns `claims` instead of the original key. -/
theorem extract_folder_roundtrip_counterexample :
    derive_folder_path 1 "claim_document" (some 5) (some "uploads") = "claims/5/uploads" ∧
    extract_folder_from_url
        (localUploadUrl (derive_folder_path 1 "claim_document" (some 5) (some "uploads"))
          "file.pdf") = some "claims" ∧
    ("claims" : String) ≠ "claims/5/uploads" := by
  refine ⟨by decide, by decide, by decide⟩

/-- C4 (amended): `extract_folder_from_url` is a left-inverse of
`derive_folder_path` up to the trailing filename, for both the local
`/uploads/` URL form and the Azure blob form, provided the two address
markers (`/uploads/` and `blob.core.windows.net/`) do not re-occur inside
the path portion `{key}/{filename}` of the constructed URL — the only
derived keys violating this are those whose final category segment
normalizes to `uploads`, as the counterexample shows. -/
theorem derive_extract_folder_roundtrip (u : Int) (t : String) (c : Option Int)
    (cat : Option String) (fname : String) (hfn : '/' ∉ fname.data)
    (hup : ¬ sepUploads <:+: ((derive_folder_path u t c cat).data ++ '/' :: fname.data))
    (hupA : ¬ sepUploads <:+: (azureBlobUrl (derive_folder_path u t c cat) fname).data)
    (hbl : ¬ sepBlobHostSlash <:+:
      ("insurance-documents".data ++ '/' ::
        ((derive_folder_path u t c cat).data ++ '/' :: fname.data))) :
    extract_folder_from_url (localUploadUrl (derive_folder_path u t c cat) fname) =
      some (derive_folder_path u t c cat) ∧
    extract_folder_from_url (azureBlobUrl (derive_folder_path u t c cat) fname) =
      some (derive_folder_path u t c cat) :=
  ⟨extract_local_roundtrip _ _ (derive_folder_path_data_ne_nil u t c cat) hfn hup,
   extract_azure_roundtrip _ _ (derive_folder_path_data_ne_nil u t c cat) hfn hupA hbl⟩

set_option maxRecDepth 10000 in
/-- Witness for the amended C4 at a concrete derived key and filename. -/
theorem derive_extract_folder_roundtrip_witness :
    extract_folder_from_url
        (localUploadUrl (derive_folder_path 123 "claim_document" (some 456)
          (some "Death Certificate")) "doc.pdf") =
      some (derive_folder_path 123 "claim_document" (some 456) (some "Death Certificate")) ∧
    extract_folder_from_url
        (azureBlobUrl (derive_folder_path 123 "claim_document" (some 456)
          (some "Death Certificate")) "doc.pdf") =
      some (derive_folder_path 123 "claim_document" (some 456) (some "Death Certificate")) :=
  derive_extract_folder_roundtrip 123 "claim_document" (some 456) (some "Death Certificate")
    "doc.pdf" (by decide) (by decide) (by decide) (by decide)

/-- C3: the upload operation rejects a 0-byte file with `invalidInput`, an
over-10-MiB file with `payloadTooLarge` and a file whose extension is
outside the allowed set (e.g. `.exe`) with `unsupportedMediaType`; and every
rejection leaves the store state — puts and document records — exactly as it
was (first conjunct), so no side effect precedes validation. -/
theorem upload_rejects_without_side_effects (P : UploadParams) (req : UploadRequest)
    (st : DocStoreState) :
    (∀ e st2, upload_document P req st = (.error e, st2) → st2 = st) ∧
    (req.userId.isSome = true →
      ALLOWED_DOCUMENT_TYPES.contains (pyStrip req.documentType) = true →
      pyStrip req.fileName ≠ "" →
      ALLOWED_FILE_EXTENSIONS.contains (pyExt req.fileName) = true →
      req.content = [] →
      upload_document P req st = (.error (.invalidInput "file is empty"), st)) ∧
    (req.userId.isSome = true →
      ALLOWED_DOCUMENT_TYPES.contains (pyStrip req.documentType) = true →
      pyStrip req.fileName ≠ "" →
      ALLOWED_FILE_EXTENSIONS.contains (pyExt req.fileName) = true →
      MAX_FILE_SIZE < req.content.length →
      upload_document P req st = (.error .payloadTooLarge, st)) ∧
    (req.userId.isSome = true →
      ALLOWED_DOCUMENT_TYPES.contains (pyStrip req.documentType) = true →
      pyStrip req.fileName ≠ "" →
      pyExt req.fileName = ".exe" →
      upload_document P req st = (.error .unsupportedMediaType, st)) := by
  have hdt_ne : ALLOWED_DOCUMENT_TYPES.contains (pyStrip req.documentType) = true →
      pyStrip req.documentType ≠ "" := by
    intro h hx
    rw [hx] at h
    exact absurd h (by decide)
  refine ⟨?_, ?_, ?_, ?_⟩
  · intro e st2 h
    unfold upload_document at h
    cases hu : req.userId with
    | none =>
      rw [hu] at h
      exact (congrArg Prod.snd h).symm
    | some uid =>
      rw [hu] at h
      repeat' split at h
      all_goals first
        | exact (congrArg Prod.snd h).symm
        | exact absurd (congrArg Prod.fst h) (by simp)
  · intro h1 h2 h3 h4 h5
    obtain ⟨uid, hu⟩ := Option.isSome_iff_exists.mp h1
    have h2m : pyStrip req.documentType ∈ ALLOWED_DOCUMENT_TYPES := by simpa using h2
    have h4m : pyExt req.fileName ∈ ALLOWED_FILE_EXTENSIONS := by simpa using h4
    simp only [upload_document, hu]
    rw [if_neg (hdt_ne h2), if_neg (by simp [h2m]), if_neg h3,
      if_neg (by simp [h4m]), h5]
    rfl
  · intro h1 h2 h3 h4 h5
    obtain ⟨uid, hu⟩ := Option.isSome_iff_exists.mp h1
    have h2m : pyStrip req.documentType ∈ ALLOWED_DOCUMENT_TYPES := by simpa using h2
    have h4m : pyExt req.fileName ∈ ALLOWED_FILE_EXTENSIONS := by simpa using h4
    simp only [upload_document, hu]
    rw [if_neg (hdt_ne h2), if_neg (by simp [h2m]), if_neg h3,
      if_neg (by simp [h4m]), if_neg (by omega), if_pos h5]
  · intro h1 h2 h3 h4
    obtain ⟨uid, hu⟩ := Option.isSome_iff_exists.mp h1
    have h2m : pyStrip req.documentType ∈ ALLOWED_DOCUMENT_TYPES := by simpa using h2
    simp only [upload_document, hu]
    rw [if_neg (hdt_ne h2), if_neg (by simp [h2m]), if_neg h3, h4,
      if_pos (by decide)]

/-- Witness for C3 at concrete requests: an empty `.pdf` file, an
over-limit `.pdf` file, and a `.exe` file. -/
theorem upload_rejects_without_side_effects_witness :
    upload_document ⟨true, "tok", "http://localhost:8000", "2026-10-12", fun _ => "u"⟩
        ⟨some 1, "kyc_document", none, none, none, "a.pdf", []⟩ ⟨[], [], 1⟩ =
      (.error (.invalidInput "file is empty"), ⟨[], [], 1⟩) ∧
    upload_document ⟨true, "tok", "http://localhost:8000", "2026-10-12", fun _ => "u"⟩
        ⟨some 1, "kyc_document", none, none, none, "a.pdf",
          List.replicate (MAX_FILE_SIZE + 1) 0⟩ ⟨[], [], 1⟩ =
      (.error .payloadTooLarge, ⟨[], [], 1⟩) ∧
    upload_document ⟨true, "tok", "http://localhost:8000", "2026-10-12", fun _ => "u"⟩
        ⟨some 1, "kyc_document", none, none, none, "virus.exe", []⟩ ⟨[], [], 1⟩ =
      (.error .unsupportedMediaType, ⟨[], [], 1⟩) := by
  refine ⟨?_, ?_, ?_⟩
  · exact (upload_rejects_without_side_effects _ _ _).2.1 (by decide) (by decide)
      (by decide) (by decide) rfl
  · exact (upload_rejects_without_side_effects _ _ _).2.2.1 (by decide) (by decide)
      (by decide) (by decide) (by rw [List.length_replicate]; omega)
  · exact (upload_rejects_without_side_effects _ _ _).2.2.2 (by decide) (by decide)
      (by decide) (by decide)

/-! ## Lemmas for the reconciler -/
theorem lookup_map_setkey {k k' : String} {v : Val} (h : k' ≠ k) :
    ∀ (d : Dict), (d.map (fun p => if p.1 = k then (k, v) else p)).lookup k' = d.lookup k' := by
  intro d
  induction d with
  | nil => rfl
  | cons p t ih =>
    by_cases hp : p.1 = k
    · rw [List.map_cons, if_pos hp]
      show List.lookup k' ((k, v) :: _) = List.lookup k' (p :: t)
      rw [List.lookup, List.lookup]
      have h1 : (k' == k) = false := beq_eq_false_iff_ne.mpr h
      have h2 : (k' == p.1) = false := beq_eq_false_iff_ne.mpr (hp ▸ h)
      rw [h1, h2]
      exact ih
    · rw [List.map_cons, if_neg hp]
      rw [List.lookup, List.lookup]
      cases hk : (k' == p.1) with
      | true => rfl
      | false => exact ih

theorem lookup_append_singleton {k k' : String} {v : Val} (h : k' ≠ k) :
    ∀ (d : Dict), (d ++ [(k, v)]).lookup k' = d.lookup k' := by
  intro d
  induction d with
  | nil =>
    show List.lookup k' [(k, v)] = none
    rw [List.lookup, beq_eq_false_iff_ne.mpr h]
    rfl
  | cons p t ih =>
    rw [List.cons_append, List.lookup, List.lookup]
    cases hk : (k' == p.1) with
    | true => rfl
    | false => exact ih

theorem dget_dset_ne {d : Dict} {k k' : String} {v : Val} (h : k' ≠ k) :
    dget (dset d k v) k' = dget d k' := by
  unfold dget dset
  by_cases hs : (d.lookup k).isSome
  · rw [if_pos hs, lookup_map_setkey h]
  · rw [if_neg hs, lookup_append_singleton h]

theorem updateMaster_some {claims : List Dict} {ref s : Val}
    (h : ∃ m ∈ claims, valEq (dget m "id") ref = true) :
    updateMasterClaimStatus claims ref s =
      some (claims.map (fun m =>
        if valEq (dget m "id") ref then dmerge m [("status", s)] else m)) := by
  unfold updateMasterClaimStatus crudUpdateById
  obtain ⟨m, hm, hv⟩ := h
  have hsome : (claims.find? (fun r => valEq (dget r "id") ref)).isSome := by
    rw [List.find?_isSome]
    exact ⟨m, hm, hv⟩
  obtain ⟨r, hr⟩ := Option.isSome_iff_exists.mp hsome
  rw [hr]

theorem updateMaster_none {claims : List Dict} {ref s : Val}
    (h : ¬ ∃ m ∈ claims, valEq (dget m "id") ref = true) :
    updateMasterClaimStatus claims ref s = none := by
  unfold updateMasterClaimStatus crudUpdateById
  cases hf : claims.find? (fun r => valEq (dget r "id") ref) with
  | none => rfl
  | some r =>
    refine absurd ⟨r, List.mem_of_find?_eq_some hf, ?_⟩ h
    simpa using List.find?_some hf

theorem crudUpdateById_length {rows : List Dict} {idVal : Val} {upd u : Dict}
    {rows2 : List Dict} (h : crudUpdateById rows idVal upd = some (u, rows2)) :
    rows2.length = rows.length := by
  unfold crudUpdateById at h
  cases hf : rows.find? (fun r => valEq (dget r "id") idVal) with
  | none => rw [hf] at h; cases h
  | some r =>
    rw [hf] at h
    rw [Option.some.injEq, Prod.mk.injEq] at h
    rw [← h.2]
    exact List.length_map _ _

/-- C2: a claim-typed sync payload creates exactly one new ClaimApplication
row (with the inbound fields filtered to the model's columns) when the
applicationId is fresh, updates the matched row in place with the row count
unchanged when it exists, and in both cases propagates the payload's status
onto a linked master Claim row when one matches — while a propagation that
finds no master row is swallowed, leaving the master table untouched and
the response still a success (the response conjuncts hold with no
assumption on the master table).  The crud layer is modelled from the spec
(crud.py is not in src/). -/
theorem sync_claim_reconciler (now : Val) (payload : Dict) (st : DBState)
    (htype : valEq (dgetD payload "applicationtype" (.vstr "policy")) (.vstr "claim") = true)
    (hid : pyTruthy (dget payload "applicationId") = true) :
    (get_claim_application st (dget payload "applicationId") = none →
      (sync_agent_state now payload st).1 =
        .ok ⟨"success", "created", dget payload "applicationId"⟩ ∧
      (sync_agent_state now payload st).2.claimApps =
        st.claimApps ++ [newClaimRow now payload st] ∧
      (sync_agent_state now payload st).2.claimApps.length = st.claimApps.length + 1) ∧
    (∀ db_claim updated rows,
      get_claim_application st (dget payload "applicationId") = some db_claim →
      crudUpdateById st.claimApps (dget db_claim "id") (claimSyncFiltered now payload) =
        some (updated, rows) →
      (sync_agent_state now payload st).1 =
        .ok ⟨"success", "updated", dget payload "applicationId"⟩ ∧
      (sync_agent_state now payload st).2.claimApps = rows ∧
      (sync_agent_state now payload st).2.claimApps.length = st.claimApps.length) ∧
    (∀ db_claim updated rows,
      get_claim_application st (dget payload "applicationId") = some db_claim →
      crudUpdateById st.claimApps (dget db_claim "id") (claimSyncFiltered now payload) =
        some (updated, rows) →
      pyTruthy (dget updated "claim_record_id") = true →
      dhas (claimSyncFiltered now payload) "status" = true →
      ((∃ m ∈ st.masterClaims,
          valEq (dget m "id") (dget updated "claim_record_id") = true) →
        (sync_agent_state now payload st).2.masterClaims =
          st.masterClaims.map (fun m =>
            if valEq (dget m "id") (dget updated "claim_record_id") then
              dmerge m [("status", dget (claimSyncFiltered now payload) "status")]
            else m)) ∧
      ((¬ ∃ m ∈ st.masterClaims,
          valEq (dget m "id") (dget updated "claim_record_id") = true) →
        (sync_agent_state now payload st).2.masterClaims = st.masterClaims)) ∧
    (get_claim_application st (dget payload "applicationId") = none →
      pyTruthy (dget (claimSyncFiltered now payload) "claim_record_id") = true →
      ((∃ m ∈ st.masterClaims,
          valEq (dget m "id") (dget (claimSyncFiltered now payload) "claim_record_id") = true) →
        (sync_agent_state now payload st).2.masterClaims =
          st.masterClaims.map (fun m =>
            if valEq (dget m "id") (dget (claimSyncFiltered now payload) "claim_record_id") then
              dmerge m [("status", dget (claimSyncFiltered now payload) "status")]
            else m)) ∧
      ((¬ ∃ m ∈ st.masterClaims,
          valEq (dget m "id") (dget (claimSyncFiltered now payload) "claim_record_id") = true) →
        (sync_agent_state now payload st).2.masterClaims = st.masterClaims)) := by
  have hnotid : ¬ ((!(pyTruthy (dget payload "applicationId"))) = true) := by
    simp [hid]
  have hcr_eq : dget (newClaimRow now payload st) "claim_record_id" =
      dget (claimSyncFiltered now payload) "claim_record_id" :=
    dget_dset_ne (by decide)
  have hst_eq : dget (newClaimRow now payload st) "status" =
      dget (claimSyncFiltered now payload) "status" :=
    dget_dset_ne (by decide)
  refine ⟨?_, ?_, ?_, ?_⟩
  · intro hnone
    simp only [sync_agent_state, if_neg hnotid, if_pos htype, hnone]
    refine ⟨trivial, ?_, ?_⟩
    · by_cases hc : (pyTruthy (dget (newClaimRow now payload st) "claim_record_id")) = true
      · rw [if_pos hc]; rfl
      · rw [if_neg hc]
    · by_cases hc : (pyTruthy (dget (newClaimRow now payload st) "claim_record_id")) = true
      · rw [if_pos hc]
        show (st.claimApps ++ [newClaimRow now payload st]).length = st.claimApps.length + 1
        rw [List.length_append]
        rfl
      · rw [if_neg hc]
        show (st.claimApps ++ [newClaimRow now payload st]).length = st.claimApps.length + 1
        rw [List.length_append]
        rfl
  · intro db_claim updated rows hfound hupd
    simp only [sync_agent_state, if_neg hnotid, if_pos htype, hfound, hupd]
    refine ⟨trivial, ?_, ?_⟩
    · by_cases hc : (pyTruthy (dget updated "claim_record_id") &&
          dhas (claimSyncFiltered now payload) "status") = true
      · rw [if_pos hc]; rfl
      · rw [if_neg hc]
    · by_cases hc : (pyTruthy (dget updated "claim_record_id") &&
          dhas (claimSyncFiltered now payload) "status") = true
      · rw [if_pos hc]
        show rows.length = st.claimApps.length
        exact crudUpdateById_length hupd
      · rw [if_neg hc]
        show rows.length = st.claimApps.length
        exact crudUpdateById_length hupd
  · intro db_claim updated rows hfound hupd hcr hhs
    simp only [sync_agent_state, if_neg hnotid, if_pos htype, hfound, hupd]
    rw [if_pos (by rw [hcr, hhs]; rfl)]
    constructor
    · intro hex
      show ((updateMasterClaimStatus st.masterClaims _ _).getD st.masterClaims) = _
      rw [updateMaster_some hex]
      rfl
    · intro hnex
      show ((updateMasterClaimStatus st.masterClaims _ _).getD st.masterClaims) = _
      rw [updateMaster_none hnex]
      rfl
  · intro hnone hcr
    simp only [sync_agent_state, if_neg hnotid, if_pos htype, hnone]
    rw [if_pos (by rw [hcr_eq, hcr])]
    constructor
    · intro hex
      show ((updateMasterClaimStatus st.masterClaims _ _).getD st.masterClaims) = _
      rw [hcr_eq, hst_eq, updateMaster_some hex]
      rfl
    · intro hnex
      show ((updateMasterClaimStatus st.masterClaims _ _).getD st.masterClaims) = _
      rw [hcr_eq, updateMaster_none hnex]
      rfl

/-- Witness for C2: a fresh claim sync against an empty claim table with a
linked master Claim — one row created, master status propagated, unknown
key `junk` dropped by the column filter. -/
theorem sync_claim_reconciler_witness :
    (sync_agent_state (Val.vstr "2026-10-12")
        [("applicationId", Val.vstr "app-1"), ("applicationtype", Val.vstr "claim"),
         ("status", Val.vstr "approved"), ("claim_record_id", Val.vint 7),
         ("junk", Val.vint 9)]
        ⟨[], [], [[("id", Val.vint 7), ("status", Val.vstr "old")]], [], 1, 1⟩).1 =
      .ok ⟨"success", "created", Val.vstr "app-1"⟩ ∧
    (sync_agent_state (Val.vstr "2026-10-12")
        [("applicationId", Val.vstr "app-1"), ("applicationtype", Val.vstr "claim"),
         ("status", Val.vstr "approved"), ("claim_record_id", Val.vint 7),
         ("junk", Val.vint 9)]
        ⟨[], [], [[("id", Val.vint 7), ("status", Val.vstr "old")]], [], 1, 1⟩).2.claimApps.length =
      0 + 1 ∧
    (sync_agent_state (Val.vstr "2026-10-12")
        [("applicationId", Val.vstr "app-1"), ("applicationtype", Val.vstr "claim"),
         ("status", Val.vstr "approved"), ("claim_record_id", Val.vint 7),
         ("junk", Val.vint 9)]
        ⟨[], [], [[("id", Val.vint 7), ("status", Val.vstr "old")]], [], 1, 1⟩).2.masterClaims =
      [[("id", Val.vint 7), ("status", Val.vstr "approved")]] := by
  have h := sync_claim_reconciler (Val.vstr "2026-10-12")
    [("applicationId", Val.vstr "app-1"), ("applicationtype", Val.vstr "claim"),
     ("status", Val.vstr "approved"), ("claim_record_id", Val.vint 7),
     ("junk", Val.vint 9)]
    ⟨[], [], [[("id", Val.vint 7), ("status", Val.vstr "old")]], [], 1, 1⟩
    (by decide) (by decide)
  refine ⟨(h.1 rfl).1, (h.1 rfl).2.2, ?_⟩
  have hm := (h.2.2.2 rfl (by decide)).1
    ⟨[("id", Val.vint 7), ("status", Val.vstr "old")], List.mem_cons_self _ _, by decide⟩
  rw [hm]
  rfl

theorem readRepairId_abs (hashFn : String → Int) (application_id : String) :
    readRepairId hashFn application_id = |hashFn application_id % 1000000| := by
  unfold readRepairId
  by_cases hx : hashFn application_id % 1000000 < 0
  · rw [if_pos hx, abs_of_neg hx]
  · rw [if_neg hx, abs_of_nonneg (le_of_not_lt hx)]

theorem readRepairId_lt (hashFn : String → Int) (application_id : String) :
    0 ≤ readRepairId hashFn application_id ∧
      readRepairId hashFn application_id < 1000000 := by
  rw [readRepairId_abs]
  have h0 : (0 : Int) ≤ hashFn application_id % 1000000 :=
    Int.emod_nonneg _ (by decide)
  have h1 : hashFn application_id % 1000000 < 1000000 :=
    Int.emod_lt_of_pos _ (by decide)
  rw [abs_of_nonneg h0]
  exact ⟨h0, h1⟩

theorem readRepairStep_final {v : Val}
    (h : valEq v (.vstr "approved") = true ∨ valEq v (.vstr "rejected") = true) :
    readRepairStep v = "final_decision" := by
  unfold readRepairStep
  rcases h with h | h
  · rw [if_pos h]
  · by_cases h1 : valEq v (.vstr "approved") = true
    · rw [if_pos h1]
    · rw [if_neg h1, if_pos h]

theorem readRepairStep_ingest {v : Val}
    (h1 : valEq v (.vstr "approved") = false)
    (h2 : valEq v (.vstr "rejected") = false) :
    readRepairStep v = "ingest" := by
  unfold readRepairStep
  rw [if_neg (by simp [h1]), if_neg (by simp [h2])]

/-- C6: when an application id is found only in the document store's claims
collection, the synthesized projection tags applicationtype `claim`, maps an
`approved`/`rejected` status to the terminal step `final_decision` and every
other status to the initial `ingest` step, and derives its pseudo-integer id
as the absolute value of the stable hash of the external id modulo 1,000,000
— so repeated calls for the same external id yield the same pseudo-id
(final conjunct), regardless of the document contents or clock. -/
theorem read_repair_projection (hashFn : String → Int) (parseDate : Val → Option Val)
    (now : Val) (application_id : String) (doc : Dict) (st : DBState)
    (hA : get_application_process st (.vstr application_id) = none)
    (hC : get_claim_application st (.vstr application_id) = none) :
    ∃ d, get_application hashFn parseDate now application_id (some doc) st = .ok d ∧
      dget d "applicationtype" = .vstr "claim" ∧
      dget d "id" = .vint |hashFn application_id % 1000000| ∧
      (∀ n : Int, dget d "id" = .vint n → 0 ≤ n ∧ n < 1000000) ∧
      ((valEq (dgetD doc "status" (.vstr "new_claim")) (.vstr "approved") = true ∨
        valEq (dgetD doc "status" (.vstr "new_claim")) (.vstr "rejected") = true) →
        dget d "currentStep" = .vstr "final_decision") ∧
      (valEq (dgetD doc "status" (.vstr "new_claim")) (.vstr "approved") = false →
       valEq (dgetD doc "status" (.vstr "new_claim")) (.vstr "rejected") = false →
        dget d "currentStep" = .vstr "ingest") ∧
      (∀ (parseDate2 : Val → Option Val) (now2 : Val) (doc2 : Dict) (st2 : DBState),
        get_application_process st2 (.vstr application_id) = none →
        get_claim_application st2 (.vstr application_id) = none →
        ∃ d2, get_application hashFn parseDate2 now2 application_id (some doc2) st2 = .ok d2 ∧
          dget d2 "id" = dget d "id") := by
  simp only [get_application, hA, hC]
  refine ⟨_, rfl, rfl, ?_, ?_, ?_, ?_, ?_⟩
  · exact congrArg Val.vint (readRepairId_abs hashFn application_id)
  · intro n hn
    have : readRepairId hashFn application_id = n := by
      have hlook : dget
          [("id", Val.vint (readRepairId hashFn application_id)),
           ("applicationId", Val.vstr application_id),
           ("status", dgetD doc "status" (.vstr "new_claim")),
           ("currentStep", Val.vstr (readRepairStep (dgetD doc "status" (.vstr "new_claim")))),
           ("applicationtype", Val.vstr "claim"),
           ("startTime",
             if pyTruthy (dget doc "created_at") then
               (parseDate (dget doc "created_at")).getD now
             else now),
           ("lastUpdated", now), ("agentData", Val.vobj doc),
           ("stepHistory", dgetD doc "step_history" (.varr [])),
           ("auditTrail", Val.varr []),
           ("customerId",
             if pyTruthy (dget doc "user_id") then dget doc "user_id"
             else dget doc "userId"),
           ("reviewReason", Val.null)] "id" =
          Val.vint (readRepairId hashFn application_id) := rfl
      rw [hlook] at hn
      cases hn
      rfl
    rw [← this]
    exact readRepairId_lt hashFn application_id
  · intro h
    exact congrArg Val.vstr (readRepairStep_final h)
  · intro h1 h2
    exact congrArg Val.vstr (readRepairStep_ingest h1 h2)
  · intro parseDate2 now2 doc2 st2 h2A h2C
    simp only [get_application, h2A, h2C]
    exact ⟨_, rfl, rfl⟩

/-- Witness for C6: a document-store record with status `approved` and a
negative hash value, read-repaired against empty relational tables. -/
theorem read_repair_projection_witness :
    ∃ d, get_application (fun _ => -1234567) (fun _ => none) (Val.vstr "2026-10-12")
        "claim-42" (some [("status", Val.vstr "approved")]) ⟨[], [], [], [], 1, 1⟩ =
        .ok d ∧
      dget d "applicationtype" = Val.vstr "claim" ∧
      dget d "id" = Val.vint |(-1234567 : Int) % 1000000| ∧
      dget d "currentStep" = Val.vstr "final_decision" := by
  obtain ⟨d, hok, hat, hid2, _, hfin, _, _⟩ :=
    read_repair_projection (fun _ => -1234567) (fun _ => none) (Val.vstr "2026-10-12")
      "claim-42" [("status", Val.vstr "approved")] ⟨[], [], [], [], 1, 1⟩ rfl rfl
  exact ⟨d, hok, hat, hid2, hfin (Or.inl (by decide))⟩

theorem rollbackFind_error (pred : Dict → Bool) (f : Dict → Dict) :
    ∀ (l : List Dict) (s : Dict), l.find? pred = some s →
      valEq (dget s "completed_by") (.vstr "human") = false →
      rollbackFind pred f l = .error () := by
  intro l
  induction l with
  | nil => intro s h _; cases h
  | cons a rest ih =>
    intro s h hcb
    by_cases hp : pred a = true
    · rw [List.find?_cons_of_pos _ hp, Option.some.injEq] at h
      subst h
      unfold rollbackFind
      rw [if_pos hp, if_pos (by rw [hcb]; rfl)]
    · rw [List.find?_cons_of_neg _ hp] at h
      unfold rollbackFind
      rw [if_neg hp, ih s h hcb]

/-- C7: a rollback request whose first matching step was not completed by a
human is rejected with the Conflict-class error, and the returned state is
exactly the input state — step history, agent data, audit trail and
currentStep all unchanged (the source raises before mutating anything). -/
theorem rollback_non_human_rejected (jsonParse : String → Val) (nowIso : String)
    (nowDate : Val) (req : StepRollbackReq) (st : DBState) (process step : Dict)
    (hp : get_application_process st (.vstr req.application_id) = some process)
    (hfind : (getStepHistory jsonParse process).find?
      (stepMatches req.step_id req.step_name) = some step)
    (hcb : valEq (dget step "completed_by") (.vstr "human") = false) :
    rollback_step_completion jsonParse nowIso nowDate req st =
      (.error (.conflict
        "Step was not manually completed; only manually completed steps can be rolled back"),
       st) := by
  simp only [rollback_step_completion, hp,
    rollbackFind_error (stepMatches req.step_id req.step_name)
      (markStepRollback nowIso req.admin_id req.rollback_reason)
      (getStepHistory jsonParse process) step hfind hcb]

/-- Witness for C7: one ApplicationProcess row whose only step was
completed by the agent, rolled back by id; the request is rejected and the
state is untouched. -/
theorem rollback_non_human_rejected_witness :
    rollback_step_completion (fun _ => Val.null) "t0" (Val.vstr "2026-10-12")
      ⟨"app-2", 1, "ingest", none, none⟩
      ⟨[[("id", Val.vint 1), ("applicationId", Val.vstr "app-2"),
         ("currentStep", Val.vstr "ingest"),
         ("stepHistory", Val.varr [Val.vobj
           [("id", Val.vint 1), ("name", Val.vstr "ingest"),
            ("status", Val.vstr "completed"),
            ("completed_by", Val.vstr "agent")]])]],
        [], [], [], 2, 1⟩ =
      (.error (.conflict
        "Step was not manually completed; only manually completed steps can be rolled back"),
       ⟨[[("id", Val.vint 1), ("applicationId", Val.vstr "app-2"),
          ("currentStep", Val.vstr "ingest"),
          ("stepHistory", Val.varr [Val.vobj
            [("id", Val.vint 1), ("name", Val.vstr "ingest"),
             ("status", Val.vstr "completed"),
             ("completed_by", Val.vstr "agent")]])]],
         [], [], [], 2, 1⟩) :=
  rollback_non_human_rejected (fun _ => Val.null) "t0" (Val.vstr "2026-10-12")
    ⟨"app-2", 1, "ingest", none, none⟩ _
    [("id", Val.vint 1), ("applicationId", Val.vstr "app-2"),
     ("currentStep", Val.vstr "ingest"),
     ("stepHistory", Val.varr [Val.vobj
       [("id", Val.vint 1), ("name", Val.vstr "ingest"),
        ("status", Val.vstr "completed"),
        ("completed_by", Val.vstr "agent")]])]
    [("id", Val.vint 1), ("name", Val.vstr "ingest"),
     ("status", Val.vstr "completed"), ("completed_by", Val.vstr "agent")]
    rfl rfl (by decide)

theorem applyProcessUpdate_claimApps (st : DBState) (i : Val) (u : Dict) :
    (applyProcessUpdate st i u).2.claimApps = st.claimApps := by
  unfold applyProcessUpdate
  cases h : crudUpdateById st.appProcesses i u with
  | none => rfl
  | some p => cases p; rfl

theorem applyProcessUpdate_masterClaims (st : DBState) (i : Val) (u : Dict) :
    (applyProcessUpdate st i u).2.masterClaims = st.masterClaims := by
  unfold applyProcessUpdate
  cases h : crudUpdateById st.appProcesses i u with
  | none => rfl
  | some p => cases p; rfl

/-- C10: for an application id that exists only as a claim-track
ClaimApplication row, manual step completion and rollback return NotFound
and leave the state exactly as it was (both consult only the
ApplicationProcess table); and unlike the review operation — which falls
back to the claim table and therefore never answers NotFound for such an id
— neither operation ever writes to the ClaimApplication or master-Claim
tables (final two conjuncts, for every request and state). -/
theorem step_ops_use_policy_table_only (jsonParse : String → Val) (nowIso : String)
    (nowDate : Val) (creq : StepCompleteReq) (rreq : StepRollbackReq) (vreq : ReviewReq)
    (st : DBState)
    (hA : get_application_process st (.vstr creq.application_id) = none)
    (hC : ∃ row, get_claim_application st (.vstr creq.application_id) = some row)
    (hr : rreq.application_id = creq.application_id)
    (hv : vreq.application_id = creq.application_id) :
    complete_step_manually jsonParse nowIso nowDate creq st =
      (.error (.notFound "Application process not found"), st) ∧
    rollback_step_completion jsonParse nowIso nowDate rreq st =
      (.error (.notFound "Application process not found"), st) ∧
    (∀ msg, (submit_review_decision nowDate vreq st).1 ≠ .error (.notFound msg)) ∧
    (∀ (req2 : StepCompleteReq) (st2 : DBState),
      (complete_step_manually jsonParse nowIso nowDate req2 st2).2.claimApps =
        st2.claimApps ∧
      (complete_step_manually jsonParse nowIso nowDate req2 st2).2.masterClaims =
        st2.masterClaims) ∧
    (∀ (req2 : StepRollbackReq) (st2 : DBState),
      (rollback_step_completion jsonParse nowIso nowDate req2 st2).2.claimApps =
        st2.claimApps ∧
      (rollback_step_completion jsonParse nowIso nowDate req2 st2).2.masterClaims =
        st2.masterClaims) := by
  obtain ⟨row, hrow⟩ := hC
  have hAr : get_application_process st (.vstr rreq.application_id) = none := by
    rw [hr]; exact hA
  have hAv : get_application_process st (.vstr vreq.application_id) = none := by
    rw [hv]; exact hA
  have hCv : get_claim_application st (.vstr vreq.application_id) = some row := by
    rw [hv]; exact hrow
  refine ⟨?_, ?_, ?_, ?_, ?_⟩
  · simp only [complete_step_manually, hA]
  · simp only [rollback_step_completion, hAr]
  · intro msg
    simp only [submit_review_decision, hAv, hCv]
    cases hq : crudUpdateById st.claimApps (dget row "id") (reviewUpdateData nowDate vreq) with
    | none => simp
    | some p =>
      cases p with
      | mk u rows =>
        by_cases hcond : (pyTruthy (dget row "claim_record_id") &&
            dhas (reviewUpdateData nowDate vreq) "status") = true
        · cases hm : updateMasterClaimStatus st.masterClaims
              (dget row "claim_record_id") (dget (reviewUpdateData nowDate vreq) "status") with
          | none => simp [hcond, hm]
          | some masters => simp [hcond, hm]
        · simp [hcond]
  · intro req2 st2
    cases hp2 : get_application_process st2 (.vstr req2.application_id) with
    | none => constructor <;> simp [complete_step_manually, hp2]
    | some p =>
      simp only [complete_step_manually, hp2]
      exact ⟨applyProcessUpdate_claimApps _ _ _, applyProcessUpdate_masterClaims _ _ _⟩
  · intro req2 st2
    cases hp2 : get_application_process st2 (.vstr req2.application_id) with
    | none => constructor <;> simp [rollback_step_completion, hp2]
    | some p =>
      simp only [rollback_step_completion, hp2]
      cases hrf : rollbackFind (stepMatches req2.step_id req2.step_name)
          (markStepRollback nowIso req2.admin_id req2.rollback_reason)
          (getStepHistory jsonParse p) with
      | error e => constructor <;> simp [hrf]
      | ok pr =>
        cases pr with
        | mk sh1 found =>
          simp only [hrf]
          by_cases hb : (!found) = true
          · rw [if_pos hb]
            constructor <;> simp
          · rw [if_neg hb]
            exact ⟨applyProcessUpdate_claimApps _ _ _, applyProcessUpdate_masterClaims _ _ _⟩

/-- Witness for C10: a state holding only a ClaimApplication row for
`app-9`; completion and rollback answer NotFound without touching the
state, review does not answer NotFound. -/
theorem step_ops_use_policy_table_only_witness :
    complete_step_manually (fun _ => Val.null) "t0" (Val.vstr "2026-10-12")
      ⟨"app-9", 1, "ingest", "notes", none⟩
      ⟨[], [[("id", Val.vint 3), ("applicationId", Val.vstr "app-9"),
             ("status", Val.vstr "submitted")]], [], [], 1, 5⟩ =
      (.error (.notFound "Application process not found"),
       ⟨[], [[("id", Val.vint 3), ("applicationId", Val.vstr "app-9"),
              ("status", Val.vstr "submitted")]], [], [], 1, 5⟩) ∧
    rollback_step_completion (fun _ => Val.null) "t0" (Val.vstr "2026-10-12")
      ⟨"app-9", 1, "ingest", none, none⟩
      ⟨[], [[("id", Val.vint 3), ("applicationId", Val.vstr "app-9"),
             ("status", Val.vstr "submitted")]], [], [], 1, 5⟩ =
      (.error (.notFound "Application process not found"),
       ⟨[], [[("id", Val.vint 3), ("applicationId", Val.vstr "app-9"),
              ("status", Val.vstr "submitted")]], [], [], 1, 5⟩) ∧
    (submit_review_decision (Val.vstr "2026-10-12") ⟨"app-9", "approve", none⟩
      ⟨[], [[("id", Val.vint 3), ("applicationId", Val.vstr "app-9"),
             ("status", Val.vstr "submitted")]], [], [], 1, 5⟩).1 ≠
      .error (.notFound "Application process not found") := by
  have h := step_ops_use_policy_table_only (fun _ => Val.null) "t0" (Val.vstr "2026-10-12")
    ⟨"app-9", 1, "ingest", "notes", none⟩ ⟨"app-9", 1, "ingest", none, none⟩
    ⟨"app-9", "approve", none⟩
    ⟨[], [[("id", Val.vint 3), ("applicationId", Val.vstr "app-9"),
           ("status", Val.vstr "submitted")]], [], [], 1, 5⟩
    rfl ⟨[("id", Val.vint 3), ("applicationId", Val.vstr "app-9"),
          ("status", Val.vstr "submitted")], rfl⟩ rfl rfl
  exact ⟨h.1, h.2.1, h.2.2.1 "Application process not found"⟩
